import Mathlib

/-!
# FileServer: a local file-browsing HTTP server (`main.go`)

A shallow embedding of the three functions of `main.go`

* `isPrivateIP`  (lines 48-65): the RFC 1918 classifier,
* `getLocalIP`   (lines 11-46): the scan over the host's interfaces,
* `main`         (lines 67-136): start-up, the root handler and the `/about` handler,

together with models of the Go standard-library operations they call
(`net.IP.To4`, `net.CIDRMask`, `net.IPNet.Contains`, `net.IP.String`,
`filepath.Join`, `http.Error`, `http.NotFound`, `http.ServeFile`).  The library
models follow the library's documented behaviour on a Unix host; each one says
so in its doc comment.
-/

namespace FileServer

/-! ## Package `net`: addresses, masks and networks -/

/-- Go `net.IP`: a byte slice, 4 bytes (IPv4) or 16 bytes (IPv6) when valid.
The nil slice is the empty list. -/
abbrev IP := List Nat

/-- Go `net.IPMask`: a byte slice. -/
abbrev IPMask := List Nat

/-- Go `net.IPv4len`. -/
def IPv4len : Nat := 4

/-- Go `net.IPv6len`. -/
def IPv6len : Nat := 16

/-- Go `v4InV6Prefix`: the twelve leading bytes of an IPv4-mapped address. -/
def v4InV6Prefix : List Nat := [0, 0, 0, 0, 0, 0, 0, 0, 0, 0, 255, 255]

/-- Go `net.IPv4(a, b, c, d)`: the 16-byte form of the address `a.b.c.d`. -/
def IPv4 (a b c d : Nat) : IP := v4InV6Prefix ++ [a, b, c, d]

/-- Go `net.IP.To4`: a 4-byte slice is returned as it is, a 16-byte slice
that carries the IPv4-mapped prefix yields its last four bytes, and
everything else yields nil. -/
def To4 (ip : IP) : IP :=
  if ip.length = IPv4len then ip
  else if ip.length = IPv6len ∧ ip.take 10 = List.replicate 10 0
      ∧ (ip.drop 10).head? = some 255 ∧ (ip.drop 11).head? = some 255 then
    ip.drop 12
  else []

/-- The loop of Go `net.CIDRMask`: `n` one bits are laid out over `l` bytes. -/
def cidrBytes : Nat → Nat → List Nat
  | 0, _ => []
  | l + 1, n =>
    if 8 ≤ n then 255 :: cidrBytes l (n - 8)
    else (255 - (255 >>> n)) :: cidrBytes l 0

/-- Go `net.CIDRMask(ones, bits)`: nil unless `bits` is 32 or 128 and
`ones ≤ bits`. -/
def CIDRMask (ones bits : Nat) : IPMask :=
  if bits ≠ 8 * IPv4len ∧ bits ≠ 8 * IPv6len then []
  else if bits < ones then []
  else cidrBytes (bits / 8) ones

/-- Go `net.IPNet`: a network number and a mask. -/
structure IPNet where
  IP : IP
  Mask : IPMask
  deriving DecidableEq, Repr

/-- Go `networkNumberAndMask`: the network number in its shortest form and
the mask cut to the same length; `none` stands for the `nil, nil` result. -/
def networkNumberAndMask (n : IPNet) : Option (IP × IPMask) :=
  let ip4 := To4 n.IP
  let ip := if ip4 = [] then n.IP else ip4
  if ip4 = [] ∧ ip.length ≠ IPv6len then none
  else if n.Mask.length = IPv4len then
    if ip.length ≠ IPv4len then none else some (ip, n.Mask)
  else if n.Mask.length = IPv6len then
    if ip.length = IPv4len then some (ip, n.Mask.drop 12) else some (ip, n.Mask)
  else none

/-- The comparison loop of `IPNet.Contains`: every byte of the network
number agrees with the address under the mask. -/
def maskedEq : List Nat → List Nat → List Nat → Bool
  | n :: ns, m :: ms, x :: xs => (n &&& m) == (x &&& m) && maskedEq ns ms xs
  | _, _, _ => true

/-- Go `net.IPNet.Contains`. -/
def IPNet.Contains (n : IPNet) (ip : FileServer.IP) : Bool :=
  match networkNumberAndMask n with
  | none => false
  | some (nn, m) =>
    let x := To4 ip
    let ip := if x ≠ [] then x else ip
    if ip.length ≠ nn.length then false
    else maskedEq nn m ip

/-! ## `isPrivateIP` -/

/-- The table `privateBlocks` of `isPrivateIP`. -/
def privateBlocks : List IPNet :=
  [ { IP := IPv4 10 0 0 0, Mask := CIDRMask 8 32 },
    { IP := IPv4 172 16 0 0, Mask := CIDRMask 12 32 },
    { IP := IPv4 192 168 0 0, Mask := CIDRMask 16 32 } ]

/-- The loop of `isPrivateIP`: true at the first block that contains `ip`. -/
def isPrivateIP (ip : IP) : Bool :=
  privateBlocks.any fun block => block.Contains ip

/-! ## `net.IP.String` -/

/-- Dotted-decimal text of four octets, each printed in base ten. -/
def dotted (a b c d : Nat) : String :=
  toString a ++ "." ++ toString b ++ "." ++ toString c ++ "." ++ toString d

/-- Two lower-case hexadecimal digits of one byte (Go `hexString`, per byte). -/
def hexByte (b : Nat) : String :=
  String.mk [Nat.digitChar (b / 16 % 16), Nat.digitChar (b % 16)]

/-- Go `hexString`: two hexadecimal digits for every byte. -/
def hexString (ip : IP) : String :=
  String.join (ip.map hexByte)

/-- The eight 16-bit groups of a 16-byte address (Go `Addr.v6u16`). -/
def groups16 : List Nat → List Nat
  | hi :: lo :: rest => (hi * 256 + lo) :: groups16 rest
  | _ => []

/-- The first scan of Go `Addr.appendTo16`: the first longest run of at least
two zero groups, as `(zeroStart, zeroEnd)`; `(255, 255)` when there is none. -/
def longestZeroRun (gs : List Nat) : Nat × Nat :=
  (List.range 8).foldl (fun best i =>
    let l := ((gs.drop i).takeWhile (· == 0)).length
    if 2 ≤ l ∧ best.2 - best.1 < l then (i, i + l) else best) (255, 255)

/-- The second loop of Go `Addr.appendTo16`, from group `i` on; the first
argument bounds the number of iterations (eight are enough). -/
def appendTo16 (gs : List Nat) (zeroStart zeroEnd : Nat) : Nat → Nat → String
  | 0, _ => ""
  | fuel + 1, i =>
    if 8 ≤ i then ""
    else if i = zeroStart then
      if 8 ≤ zeroEnd then "::"
      else "::" ++ String.mk (Nat.toDigits 16 (gs.getD zeroEnd 0))
        ++ appendTo16 gs zeroStart zeroEnd fuel (zeroEnd + 1)
    else
      (if 0 < i then ":" else "") ++ String.mk (Nat.toDigits 16 (gs.getD i 0))
        ++ appendTo16 gs zeroStart zeroEnd fuel (i + 1)

/-- Text of a 16-byte address that is not IPv4-mapped (Go `Addr.string16`). -/
def string16 (ip : IP) : String :=
  let gs := groups16 ip
  let z := longestZeroRun gs
  appendTo16 gs z.1 z.2 8 0

/-- Go `net.IP.String`: `"<nil>"` for the empty slice, `"?"` and the bytes in
hexadecimal for a slice of a wrong length, dotted decimal for an IPv4
address (4-byte or IPv4-mapped), the IPv6 text otherwise. -/
def IP.String (ip : IP) : String :=
  if ip.length = 0 then "<nil>"
  else if ip.length ≠ IPv4len ∧ ip.length ≠ IPv6len then "?" ++ hexString ip
  else
    match To4 ip with
    | [a, b, c, d] => dotted a b c d
    | _ => string16 ip

/-! ## `getLocalIP` -/

/-- Go `net.FlagUp`. -/
def FlagUp : Nat := 1

/-- Go `net.FlagLoopback`. -/
def FlagLoopback : Nat := 4

/-- Go `net.Addr` as the type switch of `getLocalIP` sees it: a `*net.IPNet`,
a `*net.IPAddr`, or some other implementation of the interface. -/
inductive Addr where
  | ipNet (v : IPNet)
  | ipAddr (ip : IP) (zone : String)
  | other (network : String) (text : String)
  deriving DecidableEq, Repr

/-- Go `net.Interface`, with the outcome of its `Addrs()` call: the list of
assigned addresses, or the error of the enumeration. -/
structure Interface where
  Name : String
  Flags : Nat
  Addrs : Except String (List Addr)

/-- The host as `getLocalIP` observes it: the outcome of `net.Interfaces()`. -/
structure Host where
  Interfaces : Except String (List Interface)

/-- The type switch of `getLocalIP`: `ip` stays nil for any other type. -/
def addrIP : Addr → IP
  | .ipNet v => v.IP
  | .ipAddr ip _ => ip
  | .other _ _ => []

/-- The inner loop of `getLocalIP` over the addresses of one interface:
`some` text at the first address that passes the test, `none` when the
loop runs to its end. -/
def scanAddrs : List Addr → Option String
  | [] => none
  | addr :: rest =>
    let ip := addrIP addr
    if ip ≠ [] ∧ To4 ip ≠ [] ∧ isPrivateIP ip = true then some (IP.String ip)
    else scanAddrs rest

/-- The outer loop of `getLocalIP` over the interfaces. -/
def scanInterfaces : List Interface → Except String String
  | [] => .error "no private IP address found"
  | iface :: rest =>
    if iface.Flags &&& FlagUp = 0 ∨ iface.Flags &&& FlagLoopback ≠ 0 then
      scanInterfaces rest
    else
      match iface.Addrs with
      | .error err => .error err
      | .ok addrs =>
        match scanAddrs addrs with
        | some s => .ok s
        | none => scanInterfaces rest

/-- The function `getLocalIP`: the address text, or the error. -/
def getLocalIP (host : Host) : Except String String :=
  match host.Interfaces with
  | .error err => .error err
  | .ok interfaces => scanInterfaces interfaces

/-! ### The selection policy in the words of the specification -/

/-- An interface that is up and is not the loopback interface. -/
def Interface.usable (i : Interface) : Bool :=
  decide (i.Flags &&& FlagUp ≠ 0) && decide (i.Flags &&& FlagLoopback = 0)

/-- The addresses assigned to an interface (none when their enumeration fails). -/
def Interface.addrList (i : Interface) : List Addr :=
  match i.Addrs with
  | .ok addrs => addrs
  | .error _ => []

/-- An address that is IPv4 and private. -/
def privateIPv4 (ip : IP) : Bool :=
  decide (To4 ip ≠ []) && isPrivateIP ip

/-- The addresses of the usable interfaces, in interface-enumeration order
and then address-enumeration order. -/
def candidateIPs (ifs : List Interface) : List IP :=
  (ifs.filter Interface.usable).flatMap fun i => i.addrList.map addrIP

/-! ## Package `path/filepath` on a Unix host -/

/-- The elements of a path between its separators `/` (empty elements included). -/
def splitSlash : List Char → List (List Char)
  | [] => [[]]
  | c :: cs =>
    match splitSlash cs with
    | [] => [[]]
    | e :: es => if c = '/' then [] :: e :: es else (c :: e) :: es

/-- One iteration of the loop of Go `filepath.Clean`, element by element; the
output buffer is the stack of elements written so far, last one first.  An
empty element and `.` write nothing; `..` removes the last written element
when there is one to backtrack over, is dropped at the root, and is written
when the path is not rooted; any other element is written. -/
def cleanStep (rooted : Bool) (out : List (List Char)) (e : List Char) : List (List Char) :=
  if e = [] ∨ e = ['.'] then out
  else if e = ['.', '.'] then
    match rooted, out with
    | true, _ :: below => below
    | true, [] => []
    | false, top :: below => if top = ['.', '.'] then e :: out else below
    | false, [] => [e]
  else e :: out

/-- Go `filepath.Clean` (Unix): the shortest equivalent path by lexical
processing; the empty path becomes `.`. -/
def filepath.Clean (path : String) : String :=
  if path.data = [] then "."
  else
    let rooted := decide (path.data.head? = some '/')
    let out := (splitSlash path.data).foldl (cleanStep rooted) []
    let body := String.mk (List.intercalate ['/'] out.reverse)
    if rooted then "/" ++ body
    else if out = [] then "."
    else body

/-- Go `filepath.Join` of two elements (Unix): the elements from the first
non-empty one on are joined with `/` and the result is cleaned; two empty
elements give the empty string. -/
def filepath.Join (a b : String) : String :=
  if a ≠ "" then filepath.Clean (a ++ "/" ++ b)
  else if b ≠ "" then filepath.Clean b
  else ""

/-! ## Package `net/http`: requests, the response writer, errors -/

/-- Go `http.Request`, as far as the handlers and `http.ServeFile` read it:
the method, `r.URL.Path`, and the header fields. -/
structure Request where
  Method : String
  Path : String
  Header : List (String × String)

/-- What a handler has produced on its `http.ResponseWriter`: the status
code (`none` until the header is written) and the body written so far.
Header fields of the response are not part of the model. -/
structure ResponseWriter where
  status : Option Nat
  body : String
  deriving DecidableEq, Repr

/-- The response writer a handler receives: nothing written yet. -/
def ResponseWriter.fresh : ResponseWriter := { status := none, body := "" }

/-- Go `ResponseWriter.WriteHeader`: the first call fixes the status code. -/
def ResponseWriter.WriteHeader (w : ResponseWriter) (code : Nat) : ResponseWriter :=
  match w.status with
  | none => { w with status := some code }
  | some _ => w

/-- Go `ResponseWriter.Write`: writes the header with `200` when it has not
been written, then appends to the body.  `fmt.Fprintf`, `fmt.Fprint` and
`fmt.Fprintln` on the writer are one `Write` of the formatted text. -/
def ResponseWriter.Write (w : ResponseWriter) (s : String) : ResponseWriter :=
  let w1 := w.WriteHeader 200
  { w1 with body := w1.body ++ s }

/-- Go `http.StatusOK` and the other status codes used. -/
def StatusOK : Nat := 200

/-- Go `http.StatusMovedPermanently`. -/
def StatusMovedPermanently : Nat := 301

/-- Go `http.StatusBadRequest`. -/
def StatusBadRequest : Nat := 400

/-- Go `http.StatusForbidden`. -/
def StatusForbidden : Nat := 403

/-- Go `http.StatusNotFound`. -/
def StatusNotFound : Nat := 404

/-- Go `http.StatusInternalServerError`. -/
def StatusInternalServerError : Nat := 500

/-- Go `http.Error`: writes the header with `code`, then the message and a
newline. -/
def http.Error (w : ResponseWriter) (error : String) (code : Nat) : ResponseWriter :=
  (w.WriteHeader code).Write (error ++ "\n")

/-- Go `http.NotFound`: `Error(w, "404 page not found", StatusNotFound)`. -/
def http.NotFound (w : ResponseWriter) (_r : Request) : ResponseWriter :=
  http.Error w "404 page not found" StatusNotFound

/-! ## The file system as the handler observes it -/

/-- The failure of a file-system call, as Go `toHTTPError` tells them apart. -/
inductive FsError where
  | notExist
  | permission
  | other (msg : String)
  deriving DecidableEq, Repr

/-- Go `fs.FileInfo`, as far as the handler reads it. -/
structure FileInfo where
  IsDir : Bool
  deriving DecidableEq, Repr

/-- What `f.Stat()` reports for an opened file, as far as `http.ServeFile`
reads it: whether it is a directory, and its size in bytes. -/
structure FileStat where
  IsDir : Bool
  Size : Nat
  deriving DecidableEq, Repr

/-- An opened file as `http.ServeFile` sees it: the outcome of `f.Stat()`, the
bytes a read to the end yields, and whether the content-type step of
`serveContent` succeeds (it fails when the type has to be sniffed from the
first bytes and the seek back to the start fails). -/
structure File where
  Stat : Except FsError FileStat
  Content : String
  Rewind : Bool

/-- The outcome of every file-system call the server can make, by path:
`os.Stat`, `os.ReadDir` (the entry names, in the order of the enumeration)
and the open performed inside `http.ServeFile` for the name it is given. -/
structure FileSystem where
  Stat : String → Except FsError FileInfo
  ReadDir : String → Except FsError (List String)
  Open : String → Except FsError File

/-! ## `http.ServeFile` -/

/-- The elements of a URL path between `/` and `\` (Go `strings.FieldsFunc`
with `isSlashRune`; empty elements are harmless for the test below). -/
def splitSlashRune : List Char → List (List Char)
  | [] => [[]]
  | c :: cs =>
    match splitSlashRune cs with
    | [] => [[]]
    | e :: es => if c = '/' ∨ c = '\\' then [] :: e :: es else (c :: e) :: es

/-- Go `containsDotDot`: some element of the path is `..`. -/
def containsDotDot (v : String) : Bool :=
  (splitSlashRune v.data).any fun ent => ent == ['.', '.']

/-- Go `toHTTPError`: the message and status for a failed open. -/
def toHTTPError : FsError → String × Nat
  | .notExist => ("404 page not found", StatusNotFound)
  | .permission => ("403 Forbidden", StatusForbidden)
  | .other _ => ("500 Internal Server Error", StatusInternalServerError)

/-- Go `localRedirect`: a `301` with the `Location` header and no body. -/
def localRedirect (w : ResponseWriter) (_r : Request) (_newPath : String) : ResponseWriter :=
  w.WriteHeader StatusMovedPermanently

/-- The request headers that make `serveContent` leave the plain path:
preconditions and ranges. -/
def conditionalHeaders : List String :=
  ["If-Match", "If-None-Match", "If-Modified-Since", "If-Unmodified-Since", "If-Range", "Range"]

/-- A plain `GET`: method `GET` and no precondition or range header. -/
def Request.plainGet (r : Request) : Bool :=
  r.Method == "GET" && r.Header.all fun kv => !conditionalHeaders.contains kv.1

/-- Go `http.ServeFile(w, r, name)` as documented: a request whose URL path
has a `..` element is rejected with `400`; a request whose URL path ends in
`/index.html` is redirected to `./`; a failed open and a failed `f.Stat()`
are reported through `toHTTPError`; for a non-directory requested by a plain
`GET`, `serveContent` answers `500` when its content-type step fails and
otherwise writes the header with `200` and copies the first `Size` bytes of
the content (`io.CopyN` with the size `f.Stat()` reported).  The remaining
branches (a directory, a precondition or range header, another method) are
the parameter `rest`. -/
def http.ServeFile (fs : FileSystem) (rest : ResponseWriter → Request → File → ResponseWriter)
    (w : ResponseWriter) (r : Request) (name : String) : ResponseWriter :=
  if containsDotDot r.Path then http.Error w "invalid URL path" StatusBadRequest
  else if "/index.html".data.isSuffixOf r.Path.data then localRedirect w r "./"
  else
    match fs.Open name with
    | .error err => http.Error w (toHTTPError err).1 (toHTTPError err).2
    | .ok f =>
      match f.Stat with
      | .error err => http.Error w (toHTTPError err).1 (toHTTPError err).2
      | .ok d =>
        if !d.IsDir && r.plainGet then
          if !f.Rewind then http.Error w "seeker can't seek" StatusInternalServerError
          else (w.WriteHeader StatusOK).Write (String.mk (f.Content.data.take d.Size))
        else rest w r f

/-! ## `main`: the handlers and the start-up sequence -/

/-- A file-system call made by the root handler, with the path it passes. -/
inductive Call where
  | Stat (path : String)
  | ReadDir (path : String)
  | ServeFile (path : String)
  deriving DecidableEq, Repr

/-- The item written for one directory entry:
`fmt.Fprintf(w, "<li><a href=\"%s\">%s</a></li>", filepath.Join(r.URL.Path, name), name)`. -/
def listItem (urlPath name : String) : String :=
  "<li><a href=\"" ++ filepath.Join urlPath name ++ "\">" ++ name ++ "</a></li>"

/-- The call `os.Stat(path)`: its outcome on the file system, and the record
of the call with the argument it was given. -/
def os.Stat (fs : FileSystem) (path : String) : Except FsError FileInfo × Call :=
  (fs.Stat path, .Stat path)

/-- The call `os.ReadDir(path)`: its outcome on the file system, and the
record of the call with the argument it was given. -/
def os.ReadDir (fs : FileSystem) (path : String) : Except FsError (List String) × Call :=
  (fs.ReadDir path, .ReadDir path)

/-- The call `http.ServeFile(w, r, name)`: the response it writes, and the
record of the call with the name it was given. -/
def serveFileCall (fs : FileSystem) (rest : ResponseWriter → Request → File → ResponseWriter)
    (w : ResponseWriter) (r : Request) (name : String) : ResponseWriter × Call :=
  (http.ServeFile fs rest w r name, .ServeFile name)

/-- The handler registered for `/` (lines 75-103): the response it writes and
the file-system calls it makes, in order, each recorded by the call itself
with the argument the handler passes. -/
def rootHandler (fs : FileSystem) (rest : ResponseWriter → Request → File → ResponseWriter)
    (w : ResponseWriter) (r : Request) : ResponseWriter × List Call :=
  let path := "." ++ r.Path
  let st := os.Stat fs path
  match st.1 with
  | .error _ => (http.NotFound w r, [st.2])
  | .ok info =>
    if info.IsDir then
      let rd := os.ReadDir fs path
      match rd.1 with
      | .error _ =>
        (http.Error w "Unable to read directory" StatusInternalServerError, [st.2, rd.2])
      | .ok files =>
        let w1 := w.Write ("<h1>Index of " ++ r.Path ++ "</h1><ul>")
        let w2 := files.foldl (fun acc name => acc.Write (listItem r.Path name)) w1
        (w2.Write "</ul>", [st.2, rd.2])
    else
      let sf := serveFileCall fs rest w r path
      (sf.1, [st.2, sf.2])

/-- The `/about` template up to its first `%s`. -/
def aboutHead : String :=
  "\n"
    ++ "\t\t\t<html>\n"
    ++ "\t\t\t\t<head>\n"
    ++ "\t\t\t\t\t<title>About This Server</title>\n"
    ++ "\t\t\t\t</head>\n"
    ++ "\t\t\t\t<body>\n"
    ++ "\t\t\t\t\t<h1>About This Server</h1>\n"
    ++ "\t\t\t\t\t<p>This is a simple file server written in Go. It serves files from the current directory and allows users to browse and view text files via a web browser.</p>\n"
    ++ "\t\t\t\t\t<h2>Features:</h2>\n"
    ++ "\t\t\t\t\t<ul>\n"
    ++ "\t\t\t\t\t\t<li>Lists files and directories in the current directory.</li>\n"
    ++ "\t\t\t\t\t\t<li>Allows users to view the content of text files directly in the browser.</li>\n"
    ++ "\t\t\t\t\t\t<li>Accessible via local network IP as well as localhost.</li>\n"
    ++ "\t\t\t\t\t</ul>\n"
    ++ "\t\t\t\t\t<h2>How to Access:</h2>\n"
    ++ "\t\t\t\t\t<p>You can access the server using the following URLs:</p>\n"
    ++ "\t\t\t\t\t<ul>\n"
    ++ "\t\t\t\t\t\t<li><a href=\"http://127.0.0.1\">http://127.0.0.1</a> (Localhost)</li>\n"
    ++ "\t\t\t\t\t\t<li><a href=\"http://"

/-- The `/about` template between its two `%s`. -/
def aboutMid : String :=
  "\">http://"

/-- The `/about` template after its second `%s`. -/
def aboutTail : String :=
  "</a> (LAN IP)</li>\n"
    ++ "\t\t\t\t\t</ul>\n"
    ++ "\t\t\t\t\t<p>Replace <code>LAN IP</code> with the actual IP address provided above.</p>\n"
    ++ "\t\t\t\t</body>\n"
    ++ "\t\t\t</html>\n"
    ++ "\t\t"

/-- The handler registered for `/about` (lines 106-131):
`fmt.Fprintf(w, template, localIP, localIP)`. -/
def aboutHandler (localIP : String) (w : ResponseWriter) (_r : Request) : ResponseWriter :=
  w.Write (aboutHead ++ localIP ++ aboutMid ++ localIP ++ aboutTail)

/-- The two closures `main` registers; the second one captures `localIP`. -/
inductive Handler where
  | root
  | about (localIP : String)
  deriving DecidableEq, Repr

/-- What `main` does that is visible from outside, in order. -/
inductive Event where
  | Print (text : String)
  | HandleFunc (pattern : String) (handler : Handler)
  | ListenAndServe (addr : String)
  deriving DecidableEq, Repr

/-- The function `main` (lines 67-136) up to and including the call of
`http.ListenAndServe`. -/
def main (host : Host) : List Event :=
  match getLocalIP host with
  | .error err => [.Print ("Error getting local IP address: " ++ err ++ "\n")]
  | .ok localIP =>
    [ .HandleFunc "/" .root,
      .HandleFunc "/about" (.about localIP),
      .Print ("Server started at http://" ++ "127.0.0.1" ++ " (local) and http://"
        ++ localIP ++ " (LAN)\n"),
      .ListenAndServe "0.0.0.0:80" ]

/-! ## Where a path leads, and concrete hosts and file systems -/

/-- The path a `Call` was made with. -/
def Call.path : Call → String
  | .Stat p => p
  | .ReadDir p => p
  | .ServeFile p => p

/-- One step of the operating system's walk along a relative path, the
current directory being a stack of names with the innermost first: an empty
element and `.` stay, `..` moves to the parent (the root is its own parent),
a name descends. -/
def walkStep (dir : List String) (e : String) : List String :=
  if e = "" ∨ e = "." then dir
  else if e = ".." then dir.tail
  else e :: dir

/-- The directory entry a relative path designates when it is resolved from
the working directory `cwd` (names from the root down, symbolic links aside). -/
def resolveFrom (cwd : List String) (path : String) : List String :=
  (((splitSlash path.data).map String.mk).foldl walkStep cwd.reverse).reverse

/-- A host with an up loopback interface holding `10.0.0.1`, a down interface
holding `192.168.1.5`, and an up interface holding an IPv6 address, the public
`8.8.8.8`, then `172.20.1.5` and `192.168.0.9`. -/
def demoHost : Host :=
  { Interfaces := .ok
      [ { Name := "lo", Flags := 37,
          Addrs := .ok [.ipNet { IP := [10, 0, 0, 1], Mask := CIDRMask 8 32 }] },
        { Name := "eth0", Flags := 18,
          Addrs := .ok [.ipNet { IP := [192, 168, 1, 5], Mask := CIDRMask 24 32 }] },
        { Name := "eth1", Flags := 51,
          Addrs := .ok
            [ .ipNet { IP := [254, 128, 0, 0, 0, 0, 0, 0, 0, 0, 0, 0, 0, 0, 0, 1],
                       Mask := CIDRMask 64 128 },
              .ipNet { IP := IPv4 8 8 8 8, Mask := CIDRMask 24 32 },
              .ipNet { IP := IPv4 172 20 1 5, Mask := CIDRMask 16 32 },
              .ipAddr [192, 168, 0, 9] "" ] } ] }

/-- The interfaces of `demoHost`. -/
def demoInterfaces : List Interface :=
  match demoHost.Interfaces with
  | .ok ifs => ifs
  | .error _ => []

/-- The mock interface set of the specification: a down interface with a
private address and an up loopback interface with a private address. -/
def mockInterfaces : List Interface :=
  [ { Name := "eth0", Flags := 18,
      Addrs := .ok [.ipNet { IP := [192, 168, 1, 5], Mask := CIDRMask 24 32 }] },
    { Name := "lo", Flags := 37,
      Addrs := .ok [.ipNet { IP := [10, 0, 0, 1], Mask := CIDRMask 8 32 }] } ]

/-- The host with the interfaces `mockInterfaces`. -/
def mockHost : Host := { Interfaces := .ok mockInterfaces }

/-- A working directory holding the directory `docs` (entries `a.txt` and
`b.txt`), the directory `markup` (entries `<b>x` and `<li>`), the files
`index.html` and `notes.txt`, and the file `locked.txt`, which cannot be
opened; the parent directory holds a directory `secret`. -/
def demoFs : FileSystem :=
  { Stat := fun p =>
      if p = "./" ∨ p = "./docs" ∨ p = "./markup" ∨ p = "./../secret" then
        .ok { IsDir := true }
      else if p = "./index.html" ∨ p = "./notes.txt" ∨ p = "./locked.txt"
          ∨ p = "./docs/../notes.txt" then .ok { IsDir := false }
      else if p = "./private" then .error .permission
      else .error .notExist,
    ReadDir := fun p =>
      if p = "./" then .ok ["docs", "index.html", "locked.txt", "markup", "notes.txt"]
      else if p = "./docs" then .ok ["a.txt", "b.txt"]
      else if p = "./markup" then .ok ["<b>x", "<li>"]
      else if p = "./../secret" then .ok ["key.pem"]
      else .error .notExist,
    Open := fun p =>
      if p = "./index.html" then
        .ok { Stat := .ok { IsDir := false, Size := 17 }, Content := "<html>home</html>",
              Rewind := true }
      else if p = "./notes.txt" ∨ p = "./docs/../notes.txt" then
        .ok { Stat := .ok { IsDir := false, Size := 17 }, Content := "remember the milk",
              Rewind := true }
      else if p = "./locked.txt" then .error .permission
      else .error .notExist }

/-- A file system that agrees with `demoFs` except at two paths: `./NOTES.TXT`
is a directory, and `./gone` is a directory whose enumeration fails. -/
def demoFs2 : FileSystem :=
  { Stat := fun p =>
      if p = "./NOTES.TXT" ∨ p = "./gone" then .ok { IsDir := true } else demoFs.Stat p,
    ReadDir := fun p =>
      if p = "./NOTES.TXT" then .ok ["x"]
      else if p = "./gone" then .error (.other "input/output error")
      else demoFs.ReadDir p,
    Open := demoFs.Open }

/-- A stand-in for the branches of `http.ServeFile` that are left abstract. -/
def demoRest : ResponseWriter → Request → File → ResponseWriter :=
  fun w _ _ => w

/-- A `GET` request for a URL path, without header fields. -/
def get (path : String) : Request :=
  { Method := "GET", Path := path, Header := [] }

/-! ## Counting occurrences of a text -/

/-- The number of positions of a text at which the text `pat` starts. -/
def occurrences (pat : List Char) : List Char → Nat
  | [] => if pat = [] then 1 else 0
  | c :: s => (if pat.isPrefixOf (c :: s) then 1 else 0) + occurrences pat s

/-- A character of a dotted-decimal address: a decimal digit or the dot. -/
def addrChar (c : Char) : Bool :=
  c.isDigit || c == '.'

/-- No position of the text holds `1` followed by `0`, `7` or `9`, and the text
does not end in `1`: no text that starts with `10`, `17` or `19` starts in it. -/
def noPrivateStart : List Char → Bool
  | [] => true
  | [c] => c != '1'
  | c :: d :: s => !(c == '1' && (d == '0' || d == '7' || d == '9')) && noPrivateStart (d :: s)

/-- A `CONNECT` request for a URL path, without header fields (the one method for
which the server's multiplexer does not clean the path before it dispatches). -/
def connect (path : String) : Request :=
  { Method := "CONNECT", Path := path, Header := [] }

/-- A plain path element: not empty, without `/`, and neither `.` nor `..`. -/
def plainName (n : List Char) : Prop :=
  n ≠ [] ∧ '/' ∉ n ∧ n ≠ ['.'] ∧ n ≠ ['.', '.']

/-- Every byte of every address the host reports is an octet, as it is for
the byte slices of Go. -/
def Host.octets (host : Host) : Prop :=
  ∀ ifs, host.Interfaces = .ok ifs → ∀ i ∈ ifs, ∀ addrs, i.Addrs = .ok addrs →
    ∀ addr ∈ addrs, ∀ x ∈ addrIP addr, x < 256

end FileServer

namespace FileServer

/-! ## Theorems -/

set_option maxRecDepth 100000

theorem and_240_eq_16 : ∀ b < 256, (b &&& 240 = 16 ↔ 16 ≤ b ∧ b ≤ 31) := by
  decide

theorem and_255_eq : ∀ b < 256, ∀ k < 256, (k = b &&& 255 ↔ b = k) := by
  intro b hb k _
  have : b &&& 255 = b := by
    have h := Nat.and_pow_two_sub_one_eq_mod b 8
    simpa [Nat.mod_eq_of_lt hb] using h
  rw [this]; exact eq_comm

theorem contains_block8 (a b c d : Nat) (ha : a < 256) :
    IPNet.Contains { IP := IPv4 10 0 0 0, Mask := CIDRMask 8 32 } [a, b, c, d] = true
      ↔ a = 10 := by
  have h := and_255_eq a ha 10 (by decide)
  have e : (10 : Nat) &&& 255 = 10 := by decide
  simp [IPNet.Contains, networkNumberAndMask, To4, IPv4, v4InV6Prefix, CIDRMask, cidrBytes,
    IPv4len, IPv6len, maskedEq, h, e]

theorem contains_block12 (a b c d : Nat) (ha : a < 256) (hb : b < 256) :
    IPNet.Contains { IP := IPv4 172 16 0 0, Mask := CIDRMask 12 32 } [a, b, c, d] = true
      ↔ a = 172 ∧ 16 ≤ b ∧ b ≤ 31 := by
  have h := and_255_eq a ha 172 (by decide)
  have h2 := and_240_eq_16 b hb
  have h3 : (16 = b &&& 240) ↔ (16 ≤ b ∧ b ≤ 31) := by rw [← h2]; exact eq_comm
  have e : (172 : Nat) &&& 255 = 172 := by decide
  have e2 : (16 : Nat) &&& 240 = 16 := by decide
  simp [IPNet.Contains, networkNumberAndMask, To4, IPv4, v4InV6Prefix, CIDRMask, cidrBytes,
    IPv4len, IPv6len, maskedEq, h, h3, e, e2]

theorem contains_block16 (a b c d : Nat) (ha : a < 256) (hb : b < 256) :
    IPNet.Contains { IP := IPv4 192 168 0 0, Mask := CIDRMask 16 32 } [a, b, c, d] = true
      ↔ a = 192 ∧ b = 168 := by
  have h := and_255_eq a ha 192 (by decide)
  have h2 := and_255_eq b hb 168 (by decide)
  have e : (192 : Nat) &&& 255 = 192 := by decide
  have e2 : (168 : Nat) &&& 255 = 168 := by decide
  simp [IPNet.Contains, networkNumberAndMask, To4, IPv4, v4InV6Prefix, CIDRMask, cidrBytes,
    IPv4len, IPv6len, maskedEq, h, h2, e, e2]

theorem isPrivateIP_four (a b c d : Nat) (ha : a < 256) (hb : b < 256) :
    isPrivateIP [a, b, c, d] = true
      ↔ (a = 10 ∨ (a = 172 ∧ 16 ≤ b ∧ b ≤ 31) ∨ (a = 192 ∧ b = 168)) := by
  simp only [isPrivateIP, privateBlocks, List.any_cons, List.any_nil, Bool.or_false,
    Bool.or_eq_true, contains_block8 a b c d ha, contains_block12 a b c d ha hb,
    contains_block16 a b c d ha hb]

theorem To4_IPv4 (a b c d : Nat) : To4 (IPv4 a b c d) = [a, b, c, d] := by
  simp [To4, IPv4, v4InV6Prefix, IPv4len, IPv6len]

theorem To4_four (a b c d : Nat) : To4 [a, b, c, d] = [a, b, c, d] := by
  simp [To4, IPv4len]

theorem To4_of_length (ip : IP) (h : ip.length = 4) : To4 ip = ip := by
  simp [To4, IPv4len, h]

theorem To4_length (ip : IP) (h : To4 ip ≠ []) : (To4 ip).length = 4 := by
  unfold To4 at h ⊢
  split_ifs at h ⊢ with h1 h2
  · exact h1
  · rw [List.length_drop, h2.1]; rfl
  · exact absurd rfl h

theorem contains_To4 (n : IPNet) (ip : IP) (h : To4 ip ≠ []) :
    n.Contains ip = n.Contains (To4 ip) := by
  have h2 : To4 (To4 ip) = To4 ip := To4_of_length _ (To4_length ip h)
  simp [IPNet.Contains, h2, h]

theorem isPrivateIP_To4 (ip : IP) (h : To4 ip ≠ []) : isPrivateIP ip = isPrivateIP (To4 ip) := by
  simp [isPrivateIP, contains_To4 _ ip h]

/-- C1: for every IPv4 address `a.b.c.d` with octets in `0..255`, in its 4-byte and in its
16-byte (`net.IPv4`) form, `isPrivateIP` returns true exactly when `a = 10`, or `a = 172`
and `16 ≤ b ≤ 31`, or `a = 192` and `b = 168`; it is false at `8.8.8.8` and at the boundary
neighbours `172.15.255.255`, `172.32.0.0`, `192.167.0.1` and `11.0.0.0`. -/
theorem isPrivateIP_iff_rfc1918 (a b c d : Nat) (ha : a < 256) (hb : b < 256)
    (_hc : c < 256) (_hd : d < 256) :
    (isPrivateIP [a, b, c, d] = true
        ↔ (a = 10 ∨ (a = 172 ∧ 16 ≤ b ∧ b ≤ 31) ∨ (a = 192 ∧ b = 168)))
      ∧ (isPrivateIP (IPv4 a b c d) = true
        ↔ (a = 10 ∨ (a = 172 ∧ 16 ≤ b ∧ b ≤ 31) ∨ (a = 192 ∧ b = 168)))
      ∧ isPrivateIP (IPv4 8 8 8 8) = false
      ∧ isPrivateIP (IPv4 172 15 255 255) = false
      ∧ isPrivateIP (IPv4 172 32 0 0) = false
      ∧ isPrivateIP (IPv4 192 167 0 1) = false
      ∧ isPrivateIP (IPv4 11 0 0 0) = false := by
  have key : ∀ x y z w : Nat, x < 256 → y < 256 →
      (isPrivateIP (IPv4 x y z w) = true
        ↔ (x = 10 ∨ (x = 172 ∧ 16 ≤ y ∧ y ≤ 31) ∨ (x = 192 ∧ y = 168))) := by
    intro x y z w hx hy
    rw [isPrivateIP_To4 _ (by simp [To4_IPv4]), To4_IPv4]
    exact isPrivateIP_four x y z w hx hy
  have neg : ∀ x y z w : Nat, x < 256 → y < 256 →
      ¬ (x = 10 ∨ (x = 172 ∧ 16 ≤ y ∧ y ≤ 31) ∨ (x = 192 ∧ y = 168)) →
      isPrivateIP (IPv4 x y z w) = false := by
    intro x y z w hx hy hn
    cases hp : isPrivateIP (IPv4 x y z w) with
    | false => rfl
    | true => exact absurd ((key x y z w hx hy).1 hp) hn
  refine ⟨isPrivateIP_four a b c d ha hb, key a b c d ha hb, ?_, ?_, ?_, ?_, ?_⟩
  · exact neg 8 8 8 8 (by decide) (by decide) (by decide)
  · exact neg 172 15 255 255 (by decide) (by decide) (by decide)
  · exact neg 172 32 0 0 (by decide) (by decide) (by decide)
  · exact neg 192 167 0 1 (by decide) (by decide) (by decide)
  · exact neg 11 0 0 0 (by decide) (by decide) (by decide)

/-- Witness for C1 at `192.168.1.5`. -/
theorem isPrivateIP_iff_rfc1918_witness :
    isPrivateIP [192, 168, 1, 5] = true ∧ isPrivateIP (IPv4 192 168 1 5) = true :=
  have h := isPrivateIP_iff_rfc1918 192 168 1 5 (by decide) (by decide) (by decide) (by decide)
  ⟨h.1.2 (by decide), h.2.1.2 (by decide)⟩

/-! ### `getLocalIP` -/

theorem IP_String_of_To4 (ip : IP) (h : To4 ip ≠ []) :
    ∃ a b c d, To4 ip = [a, b, c, d] ∧ IP.String ip = dotted a b c d := by
  have h4 := To4_length ip h
  obtain ⟨a, b, c, d, habcd⟩ : ∃ a b c d, To4 ip = [a, b, c, d] := by
    match hq : To4 ip, h4 with
    | [a, b, c, d], _ => exact ⟨a, b, c, d, rfl⟩
  refine ⟨a, b, c, d, habcd, ?_⟩
  have hlen : ip.length = 4 ∨ ip.length = 16 := by
    unfold To4 at h
    split_ifs at h with h1 h2
    · exact Or.inl h1
    · exact Or.inr h2.1
    · exact absurd rfl h
  unfold IP.String
  rcases hlen with hl | hl <;> simp [hl, IPv4len, IPv6len, habcd]

theorem scanAddrs_eq (addrs : List Addr) :
    scanAddrs addrs = ((addrs.map addrIP).find? privateIPv4).map IP.String := by
  induction addrs with
  | nil => rfl
  | cons addr rest ih =>
    have hnil : To4 ([] : IP) = [] := by decide
    by_cases hq : privateIPv4 (addrIP addr) = true
    · have hq2 := hq
      simp only [privateIPv4, Bool.and_eq_true, decide_eq_true_eq] at hq2
      have hne : addrIP addr ≠ [] := by
        intro h0
        rw [h0] at hq2
        exact hq2.1 hnil
      simp [scanAddrs, List.find?, hq, hne, hq2.1, hq2.2]
    · have hq2 : ¬ (addrIP addr ≠ [] ∧ To4 (addrIP addr) ≠ [] ∧ isPrivateIP (addrIP addr) = true) := by
        intro h3
        apply hq
        simp [privateIPv4, h3.2.1, h3.2.2]
      simp only [scanAddrs, hq2, if_false, List.map_cons, List.find?, ih]
      simp [hq]

theorem usable_iff (i : Interface) :
    i.usable = true ↔ ¬ (i.Flags &&& FlagUp = 0 ∨ i.Flags &&& FlagLoopback ≠ 0) := by
  simp [Interface.usable, not_or]

theorem scanInterfaces_eq (ifs : List Interface) (hA : ∀ i ∈ ifs, ∃ addrs, i.Addrs = .ok addrs) :
    scanInterfaces ifs =
      match (candidateIPs ifs).find? privateIPv4 with
      | some ip => .ok (IP.String ip)
      | none => .error "no private IP address found" := by
  induction ifs with
  | nil => rfl
  | cons iface rest ih =>
    have ih2 := ih (fun i hi => hA i (List.mem_cons_of_mem _ hi))
    obtain ⟨addrs, haddrs⟩ := hA iface (List.mem_cons_self _ _)
    by_cases hu : iface.usable = true
    · have hcond := (usable_iff iface).1 hu
      have hc : candidateIPs (iface :: rest) = addrs.map addrIP ++ candidateIPs rest := by
        simp [candidateIPs, List.filter_cons, hu, Interface.addrList, haddrs]
      rw [hc, List.find?_append]
      simp only [scanInterfaces, hcond, if_false, haddrs, scanAddrs_eq]
      cases hf : (addrs.map addrIP).find? privateIPv4 with
      | some ip => simp
      | none => simpa using ih2
    · have hcond : iface.Flags &&& FlagUp = 0 ∨ iface.Flags &&& FlagLoopback ≠ 0 := by
        by_contra hcon
        exact hu ((usable_iff iface).2 hcon)
      have hc : candidateIPs (iface :: rest) = candidateIPs rest := by
        simp [candidateIPs, List.filter_cons, hu]
      rw [hc]
      simp only [scanInterfaces, hcond, if_true]
      exact ih2

theorem scanInterfaces_unusable (ifs : List Interface) (h : ∀ i ∈ ifs, i.usable = false) :
    scanInterfaces ifs = .error "no private IP address found" := by
  induction ifs with
  | nil => rfl
  | cons iface rest ih =>
    have hu : ¬ iface.usable = true := by
      rw [h iface (List.mem_cons_self _ _)]; simp
    have hcond : iface.Flags &&& FlagUp = 0 ∨ iface.Flags &&& FlagLoopback ≠ 0 := by
      by_contra hcon
      exact hu ((usable_iff iface).2 hcon)
    simp only [scanInterfaces, hcond, if_true]
    exact ih (fun i hi => h i (List.mem_cons_of_mem _ hi))

/-- C2: with every enumeration succeeding, a successful `getLocalIP` returns the
dotted-decimal text of the first address, in interface order and then address order
among the interfaces that are up and not loopback, that is IPv4 and private: the
candidate list splits as `pre ++ ip :: post` with no IPv4 private address in `pre`. -/
theorem getLocalIP_first_private (host : Host) (ifs : List Interface) (s : String)
    (hI : host.Interfaces = .ok ifs) (hA : ∀ i ∈ ifs, ∃ addrs, i.Addrs = .ok addrs)
    (hs : getLocalIP host = .ok s) :
    ∃ pre ip post a b c d,
      candidateIPs ifs = pre ++ ip :: post
        ∧ (∀ x ∈ pre, ¬ (To4 x ≠ [] ∧ isPrivateIP x = true))
        ∧ To4 ip = [a, b, c, d] ∧ isPrivateIP ip = true
        ∧ s = dotted a b c d := by
  simp only [getLocalIP, hI] at hs
  rw [scanInterfaces_eq ifs hA] at hs
  cases hf : (candidateIPs ifs).find? privateIPv4 with
  | none => simp [hf] at hs
  | some ip =>
    simp only [hf, Except.ok.injEq] at hs
    obtain ⟨hq, pre, post, hsplit, hpre⟩ := List.find?_eq_some.1 hf
    simp only [privateIPv4, Bool.and_eq_true, decide_eq_true_eq] at hq
    obtain ⟨a, b, c, d, h4, hstr⟩ := IP_String_of_To4 ip hq.1
    refine ⟨pre, ip, post, a, b, c, d, hsplit, ?_, h4, hq.2, ?_⟩
    · intro x hx hcon
      have := hpre x hx
      simp [privateIPv4, hcon.1, hcon.2] at this
    · rw [← hs, hstr]

/-- Witness for C2 on `demoHost`: the loopback and the down interface, the IPv6
address and `8.8.8.8` are passed over and `172.20.1.5` is returned. -/
theorem getLocalIP_first_private_witness :
    getLocalIP demoHost = .ok "172.20.1.5"
      ∧ ∃ pre ip post a b c d,
        candidateIPs demoInterfaces = pre ++ ip :: post
          ∧ (∀ x ∈ pre, ¬ (To4 x ≠ [] ∧ isPrivateIP x = true))
          ∧ To4 ip = [a, b, c, d] ∧ isPrivateIP ip = true
          ∧ "172.20.1.5" = dotted a b c d :=
  ⟨by rfl,
    getLocalIP_first_private demoHost demoInterfaces "172.20.1.5" rfl
      (by
        intro i hi
        simp only [demoInterfaces, demoHost, List.mem_cons, List.mem_singleton,
          List.not_mem_nil, or_false] at hi
        rcases hi with rfl | rfl | rfl <;> exact ⟨_, rfl⟩)
      (by rfl)⟩

theorem mem_candidateIPs (ifs : List Interface) (ip : IP) :
    ip ∈ candidateIPs ifs ↔
      ∃ i ∈ ifs, i.usable = true ∧ ∃ addr ∈ i.addrList, addrIP addr = ip := by
  simp only [candidateIPs, List.mem_flatMap, List.mem_filter, List.mem_map]
  constructor
  · rintro ⟨i, ⟨hi, hu⟩, hx⟩
    exact ⟨i, hi, hu, hx⟩
  · rintro ⟨i, hi, hu, hx⟩
    exact ⟨i, ⟨hi, hu⟩, hx⟩

/-- C3, as stated, fails on the mock interface set of the specification (a down
interface with `192.168.1.5`, an up loopback with `10.0.0.1`): resolution fails, but the
error is `no private IP address found`, not `no private address found`. -/
theorem getLocalIP_error_text_counterexample :
    getLocalIP mockHost = .error "no private IP address found"
      ∧ getLocalIP mockHost ≠ .error "no private address found" := by
  have h : getLocalIP mockHost = .error "no private IP address found" := by rfl
  refine ⟨h, ?_⟩
  rw [h]
  intro hcon
  injection hcon with hcon
  exact absurd hcon (by decide)

/-- C3 (amended): when `net.Interfaces()` succeeds, (1) if every `Addrs()` call succeeds
too, `getLocalIP` fails exactly when no interface that is up and not loopback carries an
address that is IPv4 and private, and every failure is the error
`no private IP address found`; (2) for an interface set made only of down interfaces and
loopback interfaces, whatever addresses they hold, `getLocalIP` fails with that error. -/
theorem getLocalIP_fails_iff (host : Host) (ifs : List Interface)
    (hI : host.Interfaces = .ok ifs) :
    ((∀ i ∈ ifs, ∃ addrs, i.Addrs = .ok addrs) →
        ((∃ err, getLocalIP host = .error err) ↔
            ¬ ∃ i ∈ ifs, (i.Flags &&& FlagUp ≠ 0 ∧ i.Flags &&& FlagLoopback = 0)
              ∧ ∃ addr ∈ i.addrList,
                  To4 (addrIP addr) ≠ [] ∧ isPrivateIP (addrIP addr) = true)
          ∧ ∀ err, getLocalIP host = .error err → err = "no private IP address found")
      ∧ ((∀ i ∈ ifs, i.Flags &&& FlagUp = 0 ∨ i.Flags &&& FlagLoopback ≠ 0) →
          getLocalIP host = .error "no private IP address found") := by
  constructor
  · intro hA
    have hscan := scanInterfaces_eq ifs hA
    simp only [getLocalIP, hI]
    cases hf : (candidateIPs ifs).find? privateIPv4 with
    | none =>
      rw [hf] at hscan
      rw [hscan]
      refine ⟨⟨fun _ => ?_, fun _ => ⟨_, rfl⟩⟩, ?_⟩
      · rintro ⟨i, hi, ⟨hup, hlo⟩, addr, haddr, h4, hp⟩
        have hmem : addrIP addr ∈ candidateIPs ifs :=
          (mem_candidateIPs ifs _).2 ⟨i, hi, by simp [Interface.usable, hup, hlo], addr, haddr, rfl⟩
        have := (List.find?_eq_none.1 hf) _ hmem
        simp [privateIPv4, h4, hp] at this
      · intro err herr
        injection herr with herr
        exact herr.symm
    | some ip =>
      rw [hf] at hscan
      rw [hscan]
      refine ⟨⟨fun ⟨err, herr⟩ => by simp at herr, fun hno => ?_⟩, fun err herr => by simp at herr⟩
      exfalso
      apply hno
      have hq := (List.find?_eq_some.1 hf).1
      have hmem : ip ∈ candidateIPs ifs := List.mem_of_find?_eq_some hf
      obtain ⟨i, hi, hu, addr, haddr, rfl⟩ := (mem_candidateIPs ifs ip).1 hmem
      simp only [privateIPv4, Bool.and_eq_true, decide_eq_true_eq] at hq
      simp only [Interface.usable, Bool.and_eq_true, decide_eq_true_eq] at hu
      exact ⟨i, hi, hu, addr, haddr, hq⟩
  · intro hdown
    simp only [getLocalIP, hI]
    apply scanInterfaces_unusable
    intro i hi
    have := hdown i hi
    cases hu : i.usable with
    | false => rfl
    | true => exact absurd this ((usable_iff i).1 hu)

/-- Witness for C3 (amended) on the mock interface set. -/
theorem getLocalIP_fails_iff_witness :
    getLocalIP mockHost = .error "no private IP address found"
      ∧ ((∃ err, getLocalIP mockHost = .error err) ↔
          ¬ ∃ i ∈ mockInterfaces, (i.Flags &&& FlagUp ≠ 0 ∧ i.Flags &&& FlagLoopback = 0)
            ∧ ∃ addr ∈ i.addrList,
                To4 (addrIP addr) ≠ [] ∧ isPrivateIP (addrIP addr) = true) :=
  have h := getLocalIP_fails_iff mockHost mockInterfaces rfl
  have hA : ∀ i ∈ mockInterfaces, ∃ addrs, i.Addrs = .ok addrs := by
    intro i hi
    simp only [mockInterfaces, List.mem_cons, List.mem_singleton, List.not_mem_nil,
      or_false] at hi
    rcases hi with rfl | rfl <;> exact ⟨_, rfl⟩
  have hD : ∀ i ∈ mockInterfaces, i.Flags &&& FlagUp = 0 ∨ i.Flags &&& FlagLoopback ≠ 0 := by
    intro i hi
    simp only [mockInterfaces, List.mem_cons, List.mem_singleton, List.not_mem_nil,
      or_false] at hi
    rcases hi with rfl | rfl <;> decide
  ⟨h.2 hD, (h.1 hA).1⟩

/-! ### The root handler -/

theorem rootHandler_unfold (fs : FileSystem)
    (rest : ResponseWriter → Request → File → ResponseWriter) (w : ResponseWriter)
    (r : Request) :
    rootHandler fs rest w r =
      match fs.Stat ("." ++ r.Path) with
      | .error _ => (http.NotFound w r, [Call.Stat ("." ++ r.Path)])
      | .ok info =>
        if info.IsDir then
          match fs.ReadDir ("." ++ r.Path) with
          | .error _ =>
            (http.Error w "Unable to read directory" StatusInternalServerError,
              [Call.Stat ("." ++ r.Path), Call.ReadDir ("." ++ r.Path)])
          | .ok files =>
            ((files.foldl (fun acc name => acc.Write (listItem r.Path name))
                (w.Write ("<h1>Index of " ++ r.Path ++ "</h1><ul>"))).Write "</ul>",
              [Call.Stat ("." ++ r.Path), Call.ReadDir ("." ++ r.Path)])
        else
          (http.ServeFile fs rest w r ("." ++ r.Path),
            [Call.Stat ("." ++ r.Path), Call.ServeFile ("." ++ r.Path)]) := by
  rfl

/-- C4: when the stat of `"." ++ P` fails, for whatever reason, the root handler answers
with status `404` and the body `404 page not found` followed by a newline, and the stat
is the only file-system call it makes: no directory is read, no file is served, no
listing is written. -/
theorem rootHandler_stat_failure (fs : FileSystem)
    (rest : ResponseWriter → Request → File → ResponseWriter) (r : Request) (err : FsError)
    (h : fs.Stat ("." ++ r.Path) = .error err) :
    rootHandler fs rest ResponseWriter.fresh r
      = ({ status := some 404, body := "404 page not found\n" }, [Call.Stat ("." ++ r.Path)]) := by
  simp only [rootHandler_unfold, h]
  rfl

/-- Witness for C4: a path that does not exist and a path whose stat is refused. -/
theorem rootHandler_stat_failure_witness :
    rootHandler demoFs demoRest ResponseWriter.fresh (get "/nope")
        = ({ status := some 404, body := "404 page not found\n" }, [Call.Stat "./nope"])
      ∧ rootHandler demoFs demoRest ResponseWriter.fresh (get "/private")
        = ({ status := some 404, body := "404 page not found\n" }, [Call.Stat "./private"]) :=
  ⟨rootHandler_stat_failure demoFs demoRest (get "/nope") FsError.notExist rfl,
    rootHandler_stat_failure demoFs demoRest (get "/private") FsError.permission rfl⟩

theorem write_body (w : ResponseWriter) (t : String) :
    (w.Write t).body = w.body ++ t := by
  obtain ⟨st, bd⟩ := w
  cases st <;> rfl

theorem write_status (w : ResponseWriter) (t : String) :
    (w.Write t).status = some (w.status.getD 200) := by
  obtain ⟨st, bd⟩ := w
  cases st <;> rfl

theorem foldl_append_string (l : List String) (acc : String) :
    List.foldl (fun x y => x ++ y) acc l = acc ++ List.foldl (fun x y => x ++ y) "" l := by
  induction l generalizing acc with
  | nil => simp
  | cons a rest ih =>
    rw [List.foldl_cons, ih, List.foldl_cons, ih ("" ++ a), String.append_assoc]
    simp

theorem join_cons (a : String) (l : List String) :
    String.join (a :: l) = a ++ String.join l := by
  unfold String.join
  rw [List.foldl_cons, foldl_append_string]
  simp

theorem foldl_write_body (f : String → String) (names : List String) (w : ResponseWriter) :
    (names.foldl (fun acc name => acc.Write (f name)) w).body
      = w.body ++ String.join (names.map f) := by
  induction names generalizing w with
  | nil => simp [String.join]
  | cons n rest ih =>
    rw [List.foldl_cons, ih, write_body, List.map_cons]
    rw [join_cons, String.append_assoc]

theorem foldl_write_status (f : String → String) (names : List String) (w : ResponseWriter)
    (code : Nat) (h : w.status = some code) :
    (names.foldl (fun acc name => acc.Write (f name)) w).status = some code := by
  induction names generalizing w with
  | nil => simpa using h
  | cons n rest ih =>
    rw [List.foldl_cons]
    apply ih
    rw [write_status, h]
    rfl

theorem rootHandler_listing (fs : FileSystem)
    (rest : ResponseWriter → Request → File → ResponseWriter) (r : Request) (info : FileInfo)
    (names : List String)
    (hS : fs.Stat ("." ++ r.Path) = .ok info) (hD : info.IsDir = true)
    (hR : fs.ReadDir ("." ++ r.Path) = .ok names) :
    rootHandler fs rest ResponseWriter.fresh r
      = ({ status := some 200,
           body := "<h1>Index of " ++ r.Path ++ "</h1><ul>"
             ++ String.join (names.map (listItem r.Path)) ++ "</ul>" },
         [Call.Stat ("." ++ r.Path), Call.ReadDir ("." ++ r.Path)]) := by
  simp only [rootHandler_unfold, hS, hD, hR, if_true]
  congr 1
  have hb := foldl_write_body (listItem r.Path) names
    (ResponseWriter.fresh.Write ("<h1>Index of " ++ r.Path ++ "</h1><ul>"))
  have hs := foldl_write_status (listItem r.Path) names
    (ResponseWriter.fresh.Write ("<h1>Index of " ++ r.Path ++ "</h1><ul>")) 200 rfl
  generalize List.foldl (fun acc name => acc.Write (listItem r.Path name))
    (ResponseWriter.fresh.Write ("<h1>Index of " ++ r.Path ++ "</h1><ul>")) names = w2 at hb hs
  have e1 : (w2.Write "</ul>").status = some 200 := by rw [write_status, hs]; rfl
  have e2 : (w2.Write "</ul>").body = "<h1>Index of " ++ r.Path ++ "</h1><ul>"
      ++ String.join (names.map (listItem r.Path)) ++ "</ul>" := by
    rw [write_body, hb, write_body]
    simp [ResponseWriter.fresh]
  cases hw : w2.Write "</ul>" with
  | mk st bd =>
    rw [hw] at e1 e2
    simp only at e1 e2
    rw [e1, e2]

/-- C9: for a URL path `P` whose stat yields a directory and whose enumeration yields the
names `n_1 .. n_k`, the root handler answers `200` and the body is exactly
`<h1>Index of P</h1><ul>`, then for every name in enumeration order the item
`<li><a href="H_i">n_i</a></li>` with `H_i = filepath.Join(P, n_i)`, then `</ul>`;
`P` and the names are inserted as they are, without HTML-escaping. -/
theorem rootHandler_listing_body (fs : FileSystem)
    (rest : ResponseWriter → Request → File → ResponseWriter) (r : Request) (info : FileInfo)
    (names : List String)
    (hS : fs.Stat ("." ++ r.Path) = .ok info) (hD : info.IsDir = true)
    (hR : fs.ReadDir ("." ++ r.Path) = .ok names) :
    (rootHandler fs rest ResponseWriter.fresh r).1
      = { status := some 200,
          body := "<h1>Index of " ++ r.Path ++ "</h1><ul>"
            ++ String.join (names.map fun n =>
                "<li><a href=\"" ++ filepath.Join r.Path n ++ "\">" ++ n ++ "</a></li>")
            ++ "</ul>" } := by
  rw [rootHandler_listing fs rest r info names hS hD hR]
  rfl

/-- Witness for C9: the directory `markup` holds the entries `<b>x` and `<li>`, which
appear unchanged in the body. -/
theorem rootHandler_listing_body_witness :
    (rootHandler demoFs demoRest ResponseWriter.fresh (get "/markup")).1
      = { status := some 200,
          body := "<h1>Index of /markup</h1><ul>"
            ++ "<li><a href=\"/markup/<b>x\"><b>x</a></li>"
            ++ "<li><a href=\"/markup/<li>\"><li></a></li>" ++ "</ul>" } :=
  (rootHandler_listing_body demoFs demoRest (get "/markup") { IsDir := true }
    ["<b>x", "<li>"] rfl rfl rfl).trans (by rfl)

/-! ### `main` -/

/-- C8: when `getLocalIP` returns an error, `main` prints
`Error getting local IP address: ` followed by the error and returns: it registers no
route, prints no banner and never calls `ListenAndServe`.  Conversely, whenever `main`
calls `ListenAndServe`, it does so on `0.0.0.0:80`, `getLocalIP` has succeeded, and both
routes, `/` and `/about`, were registered earlier. -/
theorem main_fail_fast (host : Host) :
    (∀ err, getLocalIP host = .error err →
        main host = [Event.Print ("Error getting local IP address: " ++ err ++ "\n")]
          ∧ (∀ pattern handler, Event.HandleFunc pattern handler ∉ main host)
          ∧ (∀ addr, Event.ListenAndServe addr ∉ main host))
      ∧ (∀ pre post addr, main host = pre ++ Event.ListenAndServe addr :: post →
          addr = "0.0.0.0:80"
            ∧ ∃ localIP, getLocalIP host = .ok localIP
              ∧ Event.HandleFunc "/" Handler.root ∈ pre
              ∧ Event.HandleFunc "/about" (Handler.about localIP) ∈ pre) := by
  constructor
  · intro err herr
    simp [main, herr]
  · intro pre post addr hsplit
    cases hg : getLocalIP host with
    | error err =>
      simp only [main, hg] at hsplit
      have hmem : Event.ListenAndServe addr
          ∈ [Event.Print ("Error getting local IP address: " ++ err ++ "\n")] := by
        rw [hsplit]; simp
      simp at hmem
    | ok localIP =>
      simp only [main, hg] at hsplit
      have hlen := congrArg List.length hsplit
      simp only [List.length_cons, List.length_nil, List.length_append] at hlen
      match pre, hsplit with
      | [], h => simp at h
      | [_], h => simp at h
      | [_, _], h => simp at h
      | [e1, e2, e3], h =>
        simp only [List.cons_append, List.nil_append, List.cons.injEq] at h
        obtain ⟨rfl, rfl, rfl, h4, _⟩ := h
        injection h4 with h4
        exact ⟨h4.symm, localIP, rfl, by simp, by simp⟩
      | _ :: _ :: _ :: _ :: _, h =>
        simp only [List.length_cons] at hlen
        omega

/-- Witness for C8: on the mock host start-up stops after printing the error, and on
`demoHost` the listener is bound after both routes are registered. -/
theorem main_fail_fast_witness :
    main mockHost
        = [Event.Print "Error getting local IP address: no private IP address found\n"]
      ∧ ("0.0.0.0:80" = "0.0.0.0:80"
          ∧ ∃ localIP, getLocalIP demoHost = .ok localIP
            ∧ Event.HandleFunc "/" Handler.root
                ∈ [Event.HandleFunc "/" Handler.root,
                    Event.HandleFunc "/about" (Handler.about "172.20.1.5"),
                    Event.Print ("Server started at http://127.0.0.1 (local) and "
                      ++ "http://172.20.1.5 (LAN)\n")]
            ∧ Event.HandleFunc "/about" (Handler.about localIP)
                ∈ [Event.HandleFunc "/" Handler.root,
                    Event.HandleFunc "/about" (Handler.about "172.20.1.5"),
                    Event.Print ("Server started at http://127.0.0.1 (local) and "
                      ++ "http://172.20.1.5 (LAN)\n")]) :=
  ⟨((main_fail_fast mockHost).1 "no private IP address found" (by rfl)).1,
    (main_fail_fast demoHost).2 _ [] "0.0.0.0:80" (by rfl)⟩

/-! ### The path the root handler hands to the file system -/

theorem resolveFrom_dotdot_secret (cwd : List String) :
    resolveFrom cwd "./../secret" = cwd.dropLast ++ ["secret"] := by
  have h1 : (splitSlash "./../secret".data).map String.mk = [".", "..", "secret"] := by rfl
  have h2 : ∀ dir : List String,
      List.foldl walkStep dir [".", "..", "secret"] = "secret" :: dir.tail := fun _ => rfl
  unfold resolveFrom
  rw [h1, h2, List.reverse_cons, List.tail_reverse, List.reverse_reverse]

theorem ServeFile_congr (fs fs2 : FileSystem)
    (rest : ResponseWriter → Request → File → ResponseWriter) (w : ResponseWriter)
    (r : Request) (name : String) (hO : fs.Open name = fs2.Open name) :
    http.ServeFile fs rest w r name = http.ServeFile fs2 rest w r name := by
  unfold http.ServeFile
  rw [hO]

/-- C10: for every URL path `P`, the root handler gives the file system exactly the
argument `"." ++ P`, unchanged, in each of its calls.  (1) The calls, recorded with the
arguments they receive, start with the stat and all carry `"." ++ P`.  (2) Two file
systems that answer alike at `"." ++ P` (stat, directory read, open) get the same
response and the same calls, however they differ at every other path, normalised forms
of `"." ++ P` included.  (3) The response is decided by the answers at `"." ++ P`: a
failed stat there gives `404`, a directory whose read there fails gives `500`, a directory
whose read there yields names gives their listing, and a non-directory is handed to
`http.ServeFile` under the name `"." ++ P`.  (4) For `P = "/../secret"` the handler
stats `./../secret` and, when that is a directory, lists it with `200`; and, resolved
from any working directory other than the root whose last name is not `secret`, that
path designates an entry that is not under the working directory. -/
theorem rootHandler_path_unsanitized :
    (∀ (fs : FileSystem) (rest : ResponseWriter → Request → File → ResponseWriter)
        (w : ResponseWriter) (r : Request),
        (rootHandler fs rest w r).2.head? = some (Call.Stat ("." ++ r.Path))
          ∧ ∀ c ∈ (rootHandler fs rest w r).2, c.path = "." ++ r.Path)
      ∧ (∀ (fs fs2 : FileSystem) (rest : ResponseWriter → Request → File → ResponseWriter)
          (w : ResponseWriter) (r : Request),
          fs.Stat ("." ++ r.Path) = fs2.Stat ("." ++ r.Path) →
          fs.ReadDir ("." ++ r.Path) = fs2.ReadDir ("." ++ r.Path) →
          fs.Open ("." ++ r.Path) = fs2.Open ("." ++ r.Path) →
          rootHandler fs rest w r = rootHandler fs2 rest w r)
      ∧ (∀ (fs : FileSystem) (rest : ResponseWriter → Request → File → ResponseWriter)
          (w : ResponseWriter) (r : Request),
          (∀ err, fs.Stat ("." ++ r.Path) = .error err →
              (rootHandler fs rest w r).1 = http.NotFound w r)
            ∧ (∀ info err, fs.Stat ("." ++ r.Path) = .ok info → info.IsDir = true →
                fs.ReadDir ("." ++ r.Path) = .error err →
                (rootHandler fs rest w r).1
                  = http.Error w "Unable to read directory" StatusInternalServerError)
            ∧ (∀ info names, fs.Stat ("." ++ r.Path) = .ok info → info.IsDir = true →
                fs.ReadDir ("." ++ r.Path) = .ok names →
                (rootHandler fs rest ResponseWriter.fresh r).1
                  = { status := some 200,
                      body := "<h1>Index of " ++ r.Path ++ "</h1><ul>"
                        ++ String.join (names.map (listItem r.Path)) ++ "</ul>" })
            ∧ (∀ info, fs.Stat ("." ++ r.Path) = .ok info → info.IsDir = false →
                (rootHandler fs rest w r).1 = http.ServeFile fs rest w r ("." ++ r.Path)))
      ∧ (∀ (fs : FileSystem) (rest : ResponseWriter → Request → File → ResponseWriter)
          (r : Request) (names : List String), r.Path = "/../secret" →
          fs.Stat "./../secret" = .ok { IsDir := true } →
          fs.ReadDir "./../secret" = .ok names →
          rootHandler fs rest ResponseWriter.fresh r
            = ({ status := some 200,
                 body := "<h1>Index of /../secret</h1><ul>"
                   ++ String.join (names.map (listItem "/../secret")) ++ "</ul>" },
               [Call.Stat "./../secret", Call.ReadDir "./../secret"]))
      ∧ (∀ cwd : List String, cwd ≠ [] → cwd.getLast? ≠ some "secret" →
          ¬ cwd <+: resolveFrom cwd "./../secret") := by
  refine ⟨?_, ?_, ?_, ?_, ?_⟩
  · intro fs rest w r
    cases hS : fs.Stat ("." ++ r.Path) with
    | error e => simp [rootHandler_unfold, hS, Call.path]
    | ok info =>
      cases hd : info.IsDir with
      | false => simp [rootHandler_unfold, hS, hd, Call.path]
      | true =>
        cases hR : fs.ReadDir ("." ++ r.Path) with
        | error e => simp [rootHandler_unfold, hS, hd, hR, Call.path]
        | ok files => simp [rootHandler_unfold, hS, hd, hR, Call.path]
  · intro fs fs2 rest w r hS hR hO
    rw [rootHandler_unfold, rootHandler_unfold, hS, hR,
      ServeFile_congr fs fs2 rest w r ("." ++ r.Path) hO]
  · intro fs rest w r
    refine ⟨?_, ?_, ?_, ?_⟩
    · intro err hS
      simp only [rootHandler_unfold, hS]
    · intro info err hS hD hR
      simp only [rootHandler_unfold, hS, hD, hR, if_true]
    · intro info names hS hD hR
      rw [rootHandler_listing fs rest r info names hS hD hR]
    · intro info hS hD
      simp [rootHandler_unfold, hS, hD]
  · intro fs rest r names hP hS hR
    have h := rootHandler_listing fs rest r { IsDir := true } names
      (by rw [hP]; exact hS) rfl (by rw [hP]; exact hR)
    rw [hP] at h
    exact h
  · intro cwd hne hlast hpre
    rw [resolveFrom_dotdot_secret] at hpre
    have hlen : cwd.length = (cwd.dropLast ++ ["secret"]).length := by
      rw [List.length_append, List.length_dropLast, List.length_singleton]
      have := List.length_pos.2 hne
      omega
    have heq : cwd = cwd.dropLast ++ ["secret"] := hpre.eq_of_length hlen
    apply hlast
    rw [heq, List.getLast?_append]
    simp

/-- Witness for C10: in `demoFs` a `CONNECT` request for `/../secret` lists the directory
`secret` of the parent directory, and from the working directory `/srv/www` the path
`./../secret` designates `/srv/secret`; `demoFs2`, which differs from `demoFs` at
`./NOTES.TXT`, answers the request for `/notes.txt` as `demoFs` does; `/nope` fails the
stat, `/gone` fails the directory read, `/docs` is listed and `/notes.txt` is handed to
`http.ServeFile`. -/
theorem rootHandler_path_unsanitized_witness :
    rootHandler demoFs demoRest ResponseWriter.fresh (connect "/../secret")
        = ({ status := some 200,
             body := "<h1>Index of /../secret</h1><ul>"
               ++ String.join (["key.pem"].map (listItem "/../secret")) ++ "</ul>" },
           [Call.Stat "./../secret", Call.ReadDir "./../secret"])
      ∧ resolveFrom ["srv", "www"] "./../secret" = ["srv", "secret"]
      ∧ ¬ ["srv", "www"] <+: resolveFrom ["srv", "www"] "./../secret"
      ∧ rootHandler demoFs demoRest ResponseWriter.fresh (get "/notes.txt")
          = rootHandler demoFs2 demoRest ResponseWriter.fresh (get "/notes.txt")
      ∧ (rootHandler demoFs demoRest ResponseWriter.fresh (get "/nope")).1
          = http.NotFound ResponseWriter.fresh (get "/nope")
      ∧ (rootHandler demoFs2 demoRest ResponseWriter.fresh (get "/gone")).1
          = http.Error ResponseWriter.fresh "Unable to read directory"
              StatusInternalServerError
      ∧ (rootHandler demoFs demoRest ResponseWriter.fresh (get "/docs")).1
          = { status := some 200,
              body := "<h1>Index of " ++ (get "/docs").Path ++ "</h1><ul>"
                ++ String.join (["a.txt", "b.txt"].map (listItem (get "/docs").Path))
                ++ "</ul>" }
      ∧ (rootHandler demoFs demoRest ResponseWriter.fresh (get "/notes.txt")).1
          = http.ServeFile demoFs demoRest ResponseWriter.fresh (get "/notes.txt")
              ("." ++ (get "/notes.txt").Path) :=
  ⟨rootHandler_path_unsanitized.2.2.2.1 demoFs demoRest (connect "/../secret") ["key.pem"]
      rfl rfl rfl,
    by rfl,
    rootHandler_path_unsanitized.2.2.2.2 ["srv", "www"] (by simp) (by simp),
    rootHandler_path_unsanitized.2.1 demoFs demoFs2 demoRest ResponseWriter.fresh
      (get "/notes.txt") (by rfl) (by rfl) (by rfl),
    (rootHandler_path_unsanitized.2.2.1 demoFs demoRest ResponseWriter.fresh
      (get "/nope")).1 FsError.notExist (by rfl),
    (rootHandler_path_unsanitized.2.2.1 demoFs2 demoRest ResponseWriter.fresh
      (get "/gone")).2.1 { IsDir := true } (FsError.other "input/output error")
      (by rfl) rfl (by rfl),
    (rootHandler_path_unsanitized.2.2.1 demoFs demoRest ResponseWriter.fresh
      (get "/docs")).2.2.1 { IsDir := true } ["a.txt", "b.txt"] (by rfl) rfl (by rfl),
    (rootHandler_path_unsanitized.2.2.1 demoFs demoRest ResponseWriter.fresh
      (get "/notes.txt")).2.2.2 { IsDir := false } (by rfl) rfl⟩

/-! ### The `/about` handler -/

theorem occurrences_skip (x : Char) (rest : List Char) (hx : x = '0' ∨ x = '7' ∨ x = '9')
    (t s : List Char) (ht : noPrivateStart t = true) :
    occurrences ('1' :: x :: rest) (t ++ s) = occurrences ('1' :: x :: rest) s := by
  induction t using noPrivateStart.induct with
  | case1 => rfl
  | case2 c =>
    have hc : c ≠ '1' := by simpa [noPrivateStart] using ht
    have hc2 : ('1' == c) = false := by
      rw [beq_eq_false_iff_ne]; exact fun h => hc h.symm
    simp [occurrences, List.isPrefixOf, hc2]
  | case3 c d t ih =>
    simp only [noPrivateStart, Bool.and_eq_true, Bool.not_eq_true', Bool.and_eq_false_iff,
      beq_eq_false_iff_ne, Bool.or_eq_false_iff] at ht
    have hpre : List.isPrefixOf ('1' :: x :: rest) (c :: d :: (t ++ s)) = false := by
      simp only [List.isPrefixOf, Bool.and_eq_false_iff, beq_eq_false_iff_ne]
      rcases ht.1 with h1 | h2
      · exact Or.inl (fun h => h1 h.symm)
      · refine Or.inr (Or.inl ?_)
        rcases hx with rfl | rfl | rfl
        · exact fun h => h2.1.1 h.symm
        · exact fun h => h2.1.2 h.symm
        · exact fun h => h2.2 h.symm
    have ih2 := ih ht.2
    simp only [List.cons_append] at ih2 ⊢
    rw [occurrences, hpre, ih2]
    simp

theorem mem_of_isPrefixOf_append (pat v : List Char) (c : Char) (s : List Char)
    (hlen : v.length < pat.length) (h : pat.isPrefixOf (v ++ c :: s) = true) : c ∈ pat := by
  rw [List.isPrefixOf_iff_prefix] at h
  have h1 : v ++ [c] <+: v ++ c :: s := by
    refine ⟨s, ?_⟩
    simp
  have h2 : v ++ [c] <+: pat :=
    List.prefix_of_prefix_length_le h1 h (by simp; omega)
  exact h2.subset (by simp)

theorem occurrences_inside (pat : List Char) (c : Char) (s : List Char)
    (hp : ∀ ch ∈ pat, addrChar ch = true) (hc : addrChar c = false) (u : List Char)
    (hu : u.length < pat.length) :
    occurrences pat (u ++ c :: s) = occurrences pat (c :: s) := by
  induction u with
  | nil => rfl
  | cons a u ih =>
    have hno : pat.isPrefixOf ((a :: u) ++ c :: s) = false := by
      cases hpre : pat.isPrefixOf ((a :: u) ++ c :: s) with
      | false => rfl
      | true =>
        have := hp c (mem_of_isPrefixOf_append pat (a :: u) c s hu hpre)
        rw [hc] at this
        exact absurd this (by decide)
    have hu2 : u.length < pat.length := by
      simp only [List.length_cons] at hu; omega
    simp only [List.cons_append] at hno ⊢
    rw [occurrences, hno, ih hu2]
    simp

theorem occurrences_at_self (pat : List Char) (c : Char) (s : List Char) (hne : pat ≠ [])
    (hp : ∀ ch ∈ pat, addrChar ch = true) (hc : addrChar c = false) :
    occurrences pat (pat ++ c :: s) = 1 + occurrences pat (c :: s) := by
  match pat, hne with
  | p :: pat2, _ =>
    have hpre : List.isPrefixOf (p :: pat2) (p :: (pat2 ++ c :: s)) = true := by
      rw [List.isPrefixOf_iff_prefix]
      exact ⟨c :: s, by simp⟩
    rw [List.cons_append, occurrences, hpre]
    rw [occurrences_inside (p :: pat2) c s hp hc pat2 (by simp)]
    simp

theorem toString_digits : ∀ n < 256, ∀ ch ∈ (toString n).data, addrChar ch = true := by
  decide

theorem dotted_data (a b c d : Nat) :
    (dotted a b c d).data = (toString a).data ++ '.' :: ((toString b).data
      ++ '.' :: ((toString c).data ++ '.' :: (toString d).data)) := by
  simp [dotted, String.data_append]

theorem dotted_addrChars (a b c d : Nat) (ha : a < 256) (hb : b < 256) (hc : c < 256)
    (hd : d < 256) : ∀ ch ∈ (dotted a b c d).data, addrChar ch = true := by
  intro ch hch
  rw [dotted_data] at hch
  simp only [List.mem_append, List.mem_cons] at hch
  have hdot : addrChar '.' = true := by decide
  rcases hch with h | rfl | h | rfl | h | rfl | h
  · exact toString_digits a ha ch h
  · exact hdot
  · exact toString_digits b hb ch h
  · exact hdot
  · exact toString_digits c hc ch h
  · exact hdot
  · exact toString_digits d hd ch h

theorem dotted_private_start (a b c d : Nat) (ha : a < 256) (hb : b < 256)
    (hp : isPrivateIP [a, b, c, d] = true) :
    ∃ x rest, (x = '0' ∨ x = '7' ∨ x = '9') ∧ (dotted a b c d).data = '1' :: x :: rest := by
  have h10 : (toString 10).data = ['1', '0'] := by rfl
  have h172 : (toString 172).data = ['1', '7', '2'] := by rfl
  have h192 : (toString 192).data = ['1', '9', '2'] := by rfl
  rcases (isPrivateIP_four a b c d ha hb).1 hp with rfl | ⟨rfl, _⟩ | ⟨rfl, _⟩
  · exact ⟨'0', _, Or.inl rfl, by rw [dotted_data, h10]; rfl⟩
  · exact ⟨'7', _, Or.inr (Or.inl rfl), by rw [dotted_data, h172]; rfl⟩
  · exact ⟨'9', _, Or.inr (Or.inr rfl), by rw [dotted_data, h192]; rfl⟩

theorem about_template_noPrivateStart :
    noPrivateStart aboutHead.data = true ∧ noPrivateStart aboutMid.data = true
      ∧ noPrivateStart aboutTail.data = true := by
  decide

theorem about_occurrences (a b c d : Nat) (ha : a < 256) (hb : b < 256) (hc : c < 256)
    (hd : d < 256) (hp : isPrivateIP [a, b, c, d] = true) :
    occurrences (dotted a b c d).data
      (aboutHead ++ dotted a b c d ++ aboutMid ++ dotted a b c d ++ aboutTail).data = 2 := by
  obtain ⟨x, rest, hx, hA⟩ := dotted_private_start a b c d ha hb hp
  have hchars := dotted_addrChars a b c d ha hb hc hd
  have hne : (dotted a b c d).data ≠ [] := by rw [hA]; simp
  obtain ⟨hH, hM, hT⟩ := about_template_noPrivateStart
  have hmid : aboutMid.data = '"' :: '>' :: "http://".data := by rfl
  obtain ⟨t2, htail⟩ : ∃ t2, aboutTail.data = '<' :: t2 := ⟨_, rfl⟩
  have e1 : (aboutHead ++ dotted a b c d ++ aboutMid ++ dotted a b c d ++ aboutTail).data
      = aboutHead.data ++ ((dotted a b c d).data ++ (aboutMid.data
          ++ ((dotted a b c d).data ++ aboutTail.data))) := by
    simp [String.data_append, List.append_assoc]
  have sk := fun t s ht => occurrences_skip x rest hx t s ht
  rw [← hA] at sk
  rw [e1, sk _ _ hH]
  have s1 : occurrences (dotted a b c d).data ((dotted a b c d).data ++ (aboutMid.data
      ++ ((dotted a b c d).data ++ aboutTail.data)))
      = 1 + occurrences (dotted a b c d).data (aboutMid.data
          ++ ((dotted a b c d).data ++ aboutTail.data)) := by
    rw [hmid]
    exact occurrences_at_self _ '"' _ hne hchars (by decide)
  have s2 : occurrences (dotted a b c d).data ((dotted a b c d).data ++ aboutTail.data)
      = 1 + occurrences (dotted a b c d).data aboutTail.data := by
    rw [htail]
    exact occurrences_at_self _ '<' _ hne hchars (by decide)
  have s3 : occurrences (dotted a b c d).data aboutTail.data = 0 := by
    have := sk aboutTail.data [] hT
    rw [List.append_nil] at this
    rw [this]
    simp [occurrences, hne]
  rw [s1, sk _ _ hM, s2, s3]

theorem about_template_shape :
    "http://127.0.0.1".data <:+: aboutHead.data
      ∧ "<a href=\"http://".data <:+ aboutHead.data :=
  ⟨⟨aboutHead.data.take 672, aboutHead.data.drop (672 + 16), by rfl⟩,
    ⟨aboutHead.data.take (754 - 16), by rfl⟩⟩

theorem scanAddrs_some (addrs : List Addr) (t : String) (h : scanAddrs addrs = some t) :
    ∃ addr ∈ addrs, To4 (addrIP addr) ≠ [] ∧ isPrivateIP (addrIP addr) = true
      ∧ t = IP.String (addrIP addr) := by
  induction addrs with
  | nil => simp [scanAddrs] at h
  | cons addr rest ih =>
    unfold scanAddrs at h
    dsimp only at h
    split_ifs at h with hc
    · injection h with h
      exact ⟨addr, List.mem_cons_self _ _, hc.2.1, hc.2.2, h.symm⟩
    · obtain ⟨a2, hm, hrest⟩ := ih h
      exact ⟨a2, List.mem_cons_of_mem _ hm, hrest⟩

theorem scanInterfaces_ok (ifs : List Interface) (t : String)
    (h : scanInterfaces ifs = .ok t) :
    ∃ i ∈ ifs, ∃ addrs, i.Addrs = .ok addrs ∧ ∃ addr ∈ addrs,
      To4 (addrIP addr) ≠ [] ∧ isPrivateIP (addrIP addr) = true
        ∧ t = IP.String (addrIP addr) := by
  induction ifs with
  | nil => simp [scanInterfaces] at h
  | cons iface rest ih =>
    have lift : (∃ i ∈ rest, ∃ addrs, i.Addrs = .ok addrs ∧ ∃ addr ∈ addrs,
        To4 (addrIP addr) ≠ [] ∧ isPrivateIP (addrIP addr) = true
          ∧ t = IP.String (addrIP addr)) →
        ∃ i ∈ iface :: rest, ∃ addrs, i.Addrs = .ok addrs ∧ ∃ addr ∈ addrs,
          To4 (addrIP addr) ≠ [] ∧ isPrivateIP (addrIP addr) = true
            ∧ t = IP.String (addrIP addr) := by
      rintro ⟨i, hi, hrest⟩
      exact ⟨i, List.mem_cons_of_mem _ hi, hrest⟩
    unfold scanInterfaces at h
    split_ifs at h with hc
    · exact lift (ih h)
    · cases hA : iface.Addrs with
      | error e => simp [hA] at h
      | ok addrs =>
        cases hsc : scanAddrs addrs with
        | none =>
          simp only [hA, hsc] at h
          exact lift (ih h)
        | some t2 =>
          simp only [hA, hsc, Except.ok.injEq] at h
          subst h
          exact ⟨iface, List.mem_cons_self _ _, addrs, hA, scanAddrs_some addrs t2 hsc⟩

theorem To4_subset (ip : IP) : ∀ x ∈ To4 ip, x ∈ ip := by
  unfold To4
  split_ifs with h1 h2
  · exact fun x hx => hx
  · exact fun x hx => List.mem_of_mem_drop hx
  · simp

theorem resolved_is_dotted (host : Host) (A : String) (ho : host.octets)
    (h : getLocalIP host = .ok A) :
    ∃ a b c d : Nat, a < 256 ∧ b < 256 ∧ c < 256 ∧ d < 256
      ∧ isPrivateIP [a, b, c, d] = true ∧ A = dotted a b c d := by
  cases hI : host.Interfaces with
  | error e => simp [getLocalIP, hI] at h
  | ok ifs =>
    simp only [getLocalIP, hI] at h
    obtain ⟨i, hi, addrs, hA, addr, haddr, h4, hp, hs⟩ := scanInterfaces_ok ifs A h
    obtain ⟨a, b, c, d, habcd, hstr⟩ := IP_String_of_To4 (addrIP addr) h4
    have hoct : ∀ x ∈ [a, b, c, d], x < 256 := by
      intro x hx
      rw [← habcd] at hx
      exact ho ifs hI i hi addrs hA addr haddr x (To4_subset _ x hx)
    refine ⟨a, b, c, d, hoct a (by simp), hoct b (by simp), hoct c (by simp),
      hoct d (by simp), ?_, by rw [hs, hstr]⟩
    rw [← habcd, ← isPrivateIP_To4 _ h4]
    exact hp

/-- C6: for every address text `A` and every request, the `/about` handler has no error
path: it answers `200` with the body `aboutHead ++ A ++ aboutMid ++ A ++ aboutTail`, whose
three fixed parts depend neither on `A` nor on the request.  The body contains
`http://127.0.0.1`; the first `A` follows `<a href="http://` and the second follows
`">http://`; and when `A` is the dotted-decimal text of a private IPv4 address, as is
every address that `getLocalIP` returns, `A` occurs in the body exactly twice. -/
theorem aboutHandler_response (A : String) (r : Request) :
    aboutHandler A ResponseWriter.fresh r
        = { status := some 200, body := aboutHead ++ A ++ aboutMid ++ A ++ aboutTail }
      ∧ "http://127.0.0.1".data <:+: (aboutHandler A ResponseWriter.fresh r).body.data
      ∧ "<a href=\"http://".data <:+ aboutHead.data
      ∧ aboutMid = "\">http://"
      ∧ (∀ a b c d : Nat, a < 256 → b < 256 → c < 256 → d < 256 →
          isPrivateIP [a, b, c, d] = true → A = dotted a b c d →
          occurrences A.data (aboutHandler A ResponseWriter.fresh r).body.data = 2)
      ∧ (∀ host : Host, host.octets → getLocalIP host = .ok A →
          occurrences A.data (aboutHandler A ResponseWriter.fresh r).body.data = 2) := by
  have hresp : aboutHandler A ResponseWriter.fresh r
      = { status := some 200, body := aboutHead ++ A ++ aboutMid ++ A ++ aboutTail } := by
    simp only [aboutHandler, ResponseWriter.Write, ResponseWriter.WriteHeader,
      ResponseWriter.fresh]
    congr 1
  obtain ⟨hin, hsuf⟩ := about_template_shape
  have hcount : ∀ a b c d : Nat, a < 256 → b < 256 → c < 256 → d < 256 →
      isPrivateIP [a, b, c, d] = true → A = dotted a b c d →
      occurrences A.data (aboutHandler A ResponseWriter.fresh r).body.data = 2 := by
    intro a b c d ha hb hc hd hp hA
    rw [hresp, hA]
    exact about_occurrences a b c d ha hb hc hd hp
  refine ⟨hresp, ?_, hsuf, by rfl, hcount, ?_⟩
  · rw [hresp]
    have e1 : (aboutHead ++ A ++ aboutMid ++ A ++ aboutTail).data
        = aboutHead.data ++ (A.data ++ (aboutMid.data ++ (A.data ++ aboutTail.data))) := by
      simp [String.data_append, List.append_assoc]
    show "http://127.0.0.1".data <:+: (aboutHead ++ A ++ aboutMid ++ A ++ aboutTail).data
    rw [e1]
    exact hin.trans (List.prefix_append _ _).isInfix
  · intro host ho hg
    obtain ⟨a, b, c, d, ha, hb, hc, hd, hp, hA⟩ := resolved_is_dotted host A ho hg
    exact hcount a b c d ha hb hc hd hp hA

theorem demoHost_octets : demoHost.octets := by
  intro ifs hI i hi addrs hA addr haddr x hx
  have hI2 : ifs = demoInterfaces := by
    have : demoHost.Interfaces = .ok demoInterfaces := rfl
    rw [this] at hI
    injection hI with hI
    exact hI.symm
  subst hI2
  simp only [demoInterfaces, demoHost, List.mem_cons, List.mem_singleton, List.not_mem_nil,
    or_false] at hi
  rcases hi with rfl | rfl | rfl
  all_goals
    simp only [Except.ok.injEq] at hA
    subst hA
    simp only [List.mem_cons, List.mem_singleton, List.not_mem_nil, or_false] at haddr
  · subst haddr
    simp only [addrIP, List.mem_cons, List.mem_singleton, List.not_mem_nil, or_false] at hx
    omega
  · subst haddr
    simp only [addrIP, List.mem_cons, List.mem_singleton, List.not_mem_nil, or_false] at hx
    omega
  · rcases haddr with rfl | rfl | rfl | rfl
    all_goals
      simp only [addrIP, IPv4, v4InV6Prefix, List.cons_append, List.nil_append, List.mem_cons,
        List.mem_singleton, List.not_mem_nil, or_false] at hx
      omega

/-- Witness for C6 at `172.20.1.5`, the address `getLocalIP` returns on `demoHost`. -/
theorem aboutHandler_response_witness :
    occurrences "172.20.1.5".data
        (aboutHandler "172.20.1.5" ResponseWriter.fresh (get "/about")).body.data = 2
      ∧ (getLocalIP demoHost = .ok "172.20.1.5"
        ∧ occurrences "172.20.1.5".data
            (aboutHandler "172.20.1.5" ResponseWriter.fresh (connect "/about")).body.data = 2) :=
  ⟨(aboutHandler_response "172.20.1.5" (get "/about")).2.2.2.2.1 172 20 1 5
      (by decide) (by decide) (by decide) (by decide) (by rfl) (by rfl),
    by rfl,
    (aboutHandler_response "172.20.1.5" (connect "/about")).2.2.2.2.2 demoHost
      demoHost_octets (by rfl)⟩

/-! ### The file branch of the root handler -/

theorem rootHandler_plain_file (fs : FileSystem)
    (rest : ResponseWriter → Request → File → ResponseWriter) (r : Request) (info : FileInfo)
    (f : File) (d : FileStat)
    (hS : fs.Stat ("." ++ r.Path) = .ok info) (hD : info.IsDir = false)
    (hdd : containsDotDot r.Path = false) (hidx : ¬ "/index.html".data <:+ r.Path.data)
    (hO : fs.Open ("." ++ r.Path) = .ok f) (hF : f.Stat = .ok d) (hFd : d.IsDir = false)
    (hsize : d.Size = f.Content.length) (hrew : f.Rewind = true) (hG : r.plainGet = true) :
    rootHandler fs rest ResponseWriter.fresh r
      = ({ status := some 200, body := f.Content },
          [Call.Stat ("." ++ r.Path), Call.ServeFile ("." ++ r.Path)]) := by
  have hidx2 : List.isSuffixOf "/index.html".data r.Path.data = false := by
    cases hb : List.isSuffixOf "/index.html".data r.Path.data with
    | false => rfl
    | true => exact absurd (List.isSuffixOf_iff_suffix.1 hb) hidx
  have htake : String.mk (f.Content.data.take d.Size) = f.Content := by
    rw [hsize]
    show String.mk (List.take f.Content.data.length f.Content.data) = f.Content
    rw [List.take_length]
  rw [rootHandler_unfold, hS]
  simp only [hD, Bool.false_eq_true, if_false]
  have hserve : http.ServeFile fs rest ResponseWriter.fresh r ("." ++ r.Path)
      = { status := some 200, body := f.Content } := by
    unfold http.ServeFile
    rw [hdd, hidx2, hO]
    simp only [Bool.false_eq_true, if_false, hF, hFd, hG, hrew, Bool.not_false, Bool.not_true,
      Bool.and_self, if_true]
    rw [htake]
    rfl
  rw [hserve]

/-- C7 at the failing input: `./index.html` is an existing regular file with the content
`<html>home</html>` that opens and reads without error, and the request is a plain `GET`
for `/index.html`; the root handler stats the file, hands the request to `http.ServeFile`,
and the response is `301` with an empty body, not `200` with the content of the file. -/
theorem rootHandler_index_html_redirect :
    demoFs.Stat "./index.html" = .ok { IsDir := false }
      ∧ demoFs.Open "./index.html"
          = .ok { Stat := .ok { IsDir := false, Size := 17 }, Content := "<html>home</html>",
                  Rewind := true }
      ∧ "<html>home</html>".length = 17
      ∧ (get "/index.html").plainGet = true
      ∧ rootHandler demoFs demoRest ResponseWriter.fresh (get "/index.html")
          = ({ status := some 301, body := "" },
              [Call.Stat "./index.html", Call.ServeFile "./index.html"])
      ∧ (rootHandler demoFs demoRest ResponseWriter.fresh (get "/index.html")).1
          ≠ { status := some 200, body := "<html>home</html>" }
      ∧ rootHandler demoFs demoRest ResponseWriter.fresh (get "/notes.txt")
          = ({ status := some 200, body := "remember the milk" },
              [Call.Stat "./notes.txt", Call.ServeFile "./notes.txt"]) := by
  refine ⟨by rfl, by rfl, by rfl, by rfl, by rfl, ?_, by rfl⟩
  have h : (rootHandler demoFs demoRest ResponseWriter.fresh (get "/index.html")).1
      = { status := some 301, body := "" } := by rfl
  rw [h]
  decide

/-! ### `filepath.Join` -/

theorem splitSlash_ne_nil (l : List Char) : splitSlash l ≠ [] := by
  cases l with
  | nil => simp [splitSlash]
  | cons c cs =>
    unfold splitSlash
    split
    · simp
    · split <;> simp

theorem splitSlash_cons (c : Char) (cs : List Char) :
    ∃ e es, splitSlash cs = e :: es
      ∧ splitSlash (c :: cs) = if c = '/' then [] :: e :: es else (c :: e) :: es := by
  match h : splitSlash cs with
  | [] => exact absurd h (splitSlash_ne_nil cs)
  | e :: es =>
    refine ⟨e, es, rfl, ?_⟩
    rw [splitSlash, h]

theorem splitSlash_chars (l : List Char) : ∀ e ∈ splitSlash l, ∀ c ∈ e, c ∈ l := by
  induction l with
  | nil => simp [splitSlash]
  | cons a cs ih =>
    obtain ⟨e, es, h1, h2⟩ := splitSlash_cons a cs
    rw [h1] at ih
    rw [h2]
    intro e2 he2 c hc
    split_ifs at he2 with ha
    · rcases List.mem_cons.1 he2 with rfl | he2
      · simp at hc
      · exact List.mem_cons_of_mem _ (ih e2 he2 c hc)
    · rcases List.mem_cons.1 he2 with rfl | he2
      · rcases List.mem_cons.1 hc with rfl | hc
        · exact List.mem_cons_self _ _
        · exact List.mem_cons_of_mem _ (ih e (List.mem_cons_self _ _) c hc)
      · exact List.mem_cons_of_mem _ (ih e2 (List.mem_cons_of_mem _ he2) c hc)

theorem splitSlash_append (x t : List Char) (hx : '/' ∉ x) :
    splitSlash (x ++ '/' :: t) = x :: splitSlash t := by
  induction x with
  | nil =>
    obtain ⟨e, es, h1, h2⟩ := splitSlash_cons '/' t
    rw [List.nil_append, h2, h1]
    simp
  | cons a x ih =>
    have ha : a ≠ '/' := fun h => hx (h ▸ List.mem_cons_self _ _)
    have hx2 : '/' ∉ x := fun h => hx (List.mem_cons_of_mem _ h)
    obtain ⟨e, es, h1, h2⟩ := splitSlash_cons a (x ++ '/' :: t)
    rw [List.cons_append, h2, if_neg ha]
    rw [ih hx2] at h1
    injection h1 with h1 h3
    rw [← h1, ← h3]

theorem splitSlash_single (x : List Char) (hx : '/' ∉ x) : splitSlash x = [x] := by
  induction x with
  | nil => rfl
  | cons a x ih =>
    have ha : a ≠ '/' := fun h => hx (h ▸ List.mem_cons_self _ _)
    have hx2 : '/' ∉ x := fun h => hx (List.mem_cons_of_mem _ h)
    obtain ⟨e, es, h1, h2⟩ := splitSlash_cons a x
    rw [h2, if_neg ha]
    rw [ih hx2] at h1
    injection h1 with h1 h3
    rw [← h1, ← h3]

theorem intercalate_cons_cons (x y : List Char) (rest : List (List Char)) :
    List.intercalate ['/'] (x :: y :: rest)
      = x ++ '/' :: List.intercalate ['/'] (y :: rest) := by
  simp [List.intercalate]

theorem splitSlash_intercalate (xs : List (List Char)) (hne : xs ≠ [])
    (hx : ∀ x ∈ xs, '/' ∉ x) : splitSlash (List.intercalate ['/'] xs) = xs := by
  induction xs with
  | nil => exact absurd rfl hne
  | cons x rest ih =>
    cases rest with
    | nil =>
      simpa [List.intercalate] using splitSlash_single x (hx x (List.mem_cons_self _ _))
    | cons y rest =>
      rw [intercalate_cons_cons, splitSlash_append _ _ (hx x (List.mem_cons_self _ _)),
        ih (by simp) (fun z hz => hx z (List.mem_cons_of_mem _ hz))]

theorem intercalate_snoc (xs : List (List Char)) (hne : xs ≠ []) (n : List Char) :
    List.intercalate ['/'] (xs ++ [n]) = List.intercalate ['/'] xs ++ '/' :: n := by
  induction xs with
  | nil => exact absurd rfl hne
  | cons x rest ih =>
    cases rest with
    | nil => simp [List.intercalate]
    | cons y rest =>
      rw [List.cons_append, List.cons_append, intercalate_cons_cons, intercalate_cons_cons,
        ← List.cons_append, ih (by simp)]
      simp

theorem foldl_cleanStep_plain (rooted : Bool) (xs out : List (List Char))
    (hx : ∀ x ∈ xs, plainName x) :
    List.foldl (cleanStep rooted) out xs = xs.reverse ++ out := by
  induction xs generalizing out with
  | nil => rfl
  | cons x rest ih =>
    obtain ⟨h1, _, h3, h4⟩ := hx x (List.mem_cons_self _ _)
    have hstep : cleanStep rooted out x = x :: out := by
      simp [cleanStep, h1, h3, h4]
    rw [List.foldl_cons, hstep, ih _ (fun z hz => hx z (List.mem_cons_of_mem _ hz))]
    simp

theorem join_plain (P n : String) (es : List (List Char)) (hne : es ≠ [])
    (hes : ∀ e ∈ es, plainName e) (hP : P.data = '/' :: List.intercalate ['/'] es)
    (hn : plainName n.data) : filepath.Join P n = P ++ "/" ++ n := by
  have hPne : P ≠ "" := by
    intro h
    rw [h] at hP
    simp at hP
  have hall : ∀ e ∈ es ++ [n.data], plainName e := by
    intro e he
    rcases List.mem_append.1 he with h | h
    · exact hes e h
    · rw [List.mem_singleton.1 h]; exact hn
  have hdata : (P ++ "/" ++ n).data = '/' :: List.intercalate ['/'] (es ++ [n.data]) := by
    rw [intercalate_snoc es hne]
    simp [String.data_append, hP]
  have hsplit : splitSlash (P ++ "/" ++ n).data = [] :: (es ++ [n.data]) := by
    rw [hdata]
    have := splitSlash_append [] (List.intercalate ['/'] (es ++ [n.data])) (by simp)
    rw [List.nil_append] at this
    rw [this, splitSlash_intercalate _ (by simp) (fun e he => (hall e he).2.1)]
  have hfold : List.foldl (cleanStep true) [] ([] :: (es ++ [n.data]))
      = (es ++ [n.data]).reverse := by
    rw [List.foldl_cons]
    have : cleanStep true [] [] = [] := by simp [cleanStep]
    rw [this, foldl_cleanStep_plain true _ [] hall]
    simp
  unfold filepath.Join
  rw [if_pos hPne]
  unfold filepath.Clean
  have hnonempty : (P ++ "/" ++ n).data ≠ [] := by rw [hdata]; simp
  have hrooted : decide ((P ++ "/" ++ n).data.head? = some '/') = true := by
    rw [hdata]; simp
  simp only [hnonempty, if_false, hrooted, if_true, hsplit, hfold, List.reverse_reverse]
  apply String.ext
  rw [String.data_append, hdata]
  rfl

theorem cleanStep_free (q : Char) (rooted : Bool) (out : List (List Char)) (e : List Char)
    (hout : ∀ x ∈ out, q ∉ x) (he : q ∉ e) : ∀ x ∈ cleanStep rooted out e, q ∉ x := by
  unfold cleanStep
  split_ifs with h1 h2
  · exact hout
  · cases rooted with
    | true =>
      cases out with
      | nil => simp
      | cons top below => exact fun x hx => hout x (List.mem_cons_of_mem _ hx)
    | false =>
      cases out with
      | nil =>
        intro x hx
        rw [List.mem_singleton.1 hx]; exact he
      | cons top below =>
        show ∀ x ∈ (if top = ['.', '.'] then e :: top :: below else below), q ∉ x
        split_ifs with h3
        · intro x hx
          rcases List.mem_cons.1 hx with rfl | hx
          · exact he
          · exact hout x hx
        · exact fun x hx => hout x (List.mem_cons_of_mem _ hx)
  · intro x hx
    rcases List.mem_cons.1 hx with rfl | hx
    · exact he
    · exact hout x hx

theorem foldl_cleanStep_free (q : Char) (rooted : Bool) (xs out : List (List Char))
    (hout : ∀ x ∈ out, q ∉ x) (hxs : ∀ x ∈ xs, q ∉ x) :
    ∀ x ∈ List.foldl (cleanStep rooted) out xs, q ∉ x := by
  induction xs generalizing out with
  | nil => exact hout
  | cons e rest ih =>
    rw [List.foldl_cons]
    exact ih _ (cleanStep_free q rooted out e hout (hxs e (List.mem_cons_self _ _)))
      (fun x hx => hxs x (List.mem_cons_of_mem _ hx))

theorem intercalate_free (q : Char) (hq : q ≠ '/') (xs : List (List Char))
    (hxs : ∀ x ∈ xs, q ∉ x) : q ∉ List.intercalate ['/'] xs := by
  induction xs with
  | nil => simp [List.intercalate]
  | cons x rest ih =>
    cases rest with
    | nil => simpa [List.intercalate] using hxs x (List.mem_cons_self _ _)
    | cons y rest =>
      rw [intercalate_cons_cons]
      intro hmem
      rcases List.mem_append.1 hmem with h | h
      · exact hxs x (List.mem_cons_self _ _) h
      · rcases List.mem_cons.1 h with h | h
        · exact hq h
        · exact ih (fun z hz => hxs z (List.mem_cons_of_mem _ hz)) h

theorem clean_free (q : Char) (hq : q ≠ '/') (hq2 : q ≠ '.') (path : String)
    (hp : q ∉ path.data) : q ∉ (filepath.Clean path).data := by
  have hbody : ∀ rooted, q ∉ List.intercalate ['/']
      (List.foldl (cleanStep rooted) [] (splitSlash path.data)).reverse := by
    intro rooted
    apply intercalate_free q hq
    intro x hx
    rw [List.mem_reverse] at hx
    refine foldl_cleanStep_free q rooted _ [] (by simp) ?_ x hx
    intro e he hqe
    exact hp (splitSlash_chars path.data e he q hqe)
  have hdot : q ∉ ".".data := by
    intro h
    exact hq2 (List.mem_singleton.1 h)
  unfold filepath.Clean
  dsimp only
  split_ifs with h1 h2 h3
  · exact hdot
  · rw [String.data_append]
    intro h
    rcases List.mem_append.1 h with h | h
    · exact hq (List.mem_singleton.1 h)
    · exact hbody _ h
  · exact hdot
  · exact hbody _

theorem join_free (q : Char) (hq : q ≠ '/') (hq2 : q ≠ '.') (a b : String)
    (ha : q ∉ a.data) (hb : q ∉ b.data) : q ∉ (filepath.Join a b).data := by
  unfold filepath.Join
  split_ifs with h1 h2
  · apply clean_free q hq hq2
    rw [String.data_append, String.data_append]
    intro h
    rcases List.mem_append.1 h with h | h
    · rcases List.mem_append.1 h with h | h
      · exact ha h
      · exact hq (List.mem_singleton.1 h)
    · exact hb h
  · exact clean_free q hq hq2 b hb
  · simp

/-! ### Counting the list items -/

theorem occurrences_free (p : Char) (pat u s : List Char) (hu : p ∉ u) :
    occurrences (p :: pat) (u ++ s) = occurrences (p :: pat) s := by
  induction u with
  | nil => rfl
  | cons a u ih =>
    have ha : (p == a) = false := by
      rw [beq_eq_false_iff_ne]
      exact fun h => hu (h ▸ List.mem_cons_self _ _)
    rw [List.cons_append, occurrences, ih (fun h => hu (List.mem_cons_of_mem _ h))]
    simp [List.isPrefixOf, ha]

theorem occurrences_item (urlPath name : String) (s : List Char)
    (hP : '<' ∉ urlPath.data) (hn : '<' ∉ name.data) :
    occurrences "<li>".data ((listItem urlPath name).data ++ s)
      = 1 + occurrences "<li>".data s := by
  have hH : '<' ∉ (filepath.Join urlPath name).data :=
    join_free '<' (by decide) (by decide) urlPath name hP hn
  have e1 : (listItem urlPath name).data ++ s
      = '<' :: 'l' :: 'i' :: '>' :: '<' :: 'a' :: ' ' :: 'h' :: 'r' :: 'e' :: 'f' :: '=' :: '"'
        :: ((filepath.Join urlPath name).data ++ ('"' :: '>' :: (name.data
          ++ ('<' :: '/' :: 'a' :: '>' :: '<' :: '/' :: 'l' :: 'i' :: '>' :: s)))) := by
    simp [listItem, String.data_append, List.append_assoc]
  have e2 : "<li>".data = '<' :: ['l', 'i', '>'] := rfl
  rw [e1, e2]
  have k1 := fun t => occurrences_free '<' ['l', 'i', '>'] (filepath.Join urlPath name).data t hH
  have k2 := fun t => occurrences_free '<' ['l', 'i', '>'] name.data t hn
  simp [occurrences, List.isPrefixOf, k1, k2]

theorem occurrences_items (urlPath : String) (names : List String) (s : List Char)
    (hP : '<' ∉ urlPath.data) (hn : ∀ n ∈ names, '<' ∉ n.data) :
    occurrences "<li>".data ((String.join (names.map (listItem urlPath))).data ++ s)
      = names.length + occurrences "<li>".data s := by
  induction names with
  | nil => simp [String.join]
  | cons n rest ih =>
    rw [List.map_cons, join_cons, String.data_append, List.append_assoc,
      occurrences_item urlPath n _ hP (hn n (List.mem_cons_self _ _)),
      ih (fun m hm => hn m (List.mem_cons_of_mem _ hm)), List.length_cons]
    omega

theorem occurrences_listing (urlPath : String) (names : List String)
    (hP : '<' ∉ urlPath.data) (hn : ∀ n ∈ names, '<' ∉ n.data) :
    occurrences "<li>".data ("<h1>Index of " ++ urlPath ++ "</h1><ul>"
      ++ String.join (names.map (listItem urlPath)) ++ "</ul>").data = names.length := by
  have e1 : ("<h1>Index of " ++ urlPath ++ "</h1><ul>"
      ++ String.join (names.map (listItem urlPath)) ++ "</ul>").data
      = '<' :: 'h' :: '1' :: '>' :: 'I' :: 'n' :: 'd' :: 'e' :: 'x' :: ' ' :: 'o' :: 'f' :: ' '
        :: (urlPath.data ++ ('<' :: '/' :: 'h' :: '1' :: '>' :: '<' :: 'u' :: 'l' :: '>'
          :: ((String.join (names.map (listItem urlPath))).data
            ++ ['<', '/', 'u', 'l', '>']))) := by
    simp [String.data_append, List.append_assoc]
  have e2 : "<li>".data = '<' :: ['l', 'i', '>'] := rfl
  have k1 := fun t => occurrences_free '<' ['l', 'i', '>'] urlPath.data t hP
  have k2 := occurrences_items urlPath names ['<', '/', 'u', 'l', '>'] hP hn
  rw [e2] at k2
  rw [e1, e2]
  generalize (String.join (names.map (listItem urlPath))).data = items at k2
  simp [occurrences, List.isPrefixOf, k1, k2]

theorem join_root_plain (n : String) (hn : plainName n.data) :
    filepath.Join "/" n = "/" ++ n := by
  have hdata : ("/" ++ "/" ++ n).data = '/' :: '/' :: n.data := by
    simp [String.data_append]
  have hsplit : splitSlash ("/" ++ "/" ++ n).data = [[], [], n.data] := by
    have h1 := splitSlash_append [] ('/' :: n.data) (by simp)
    have h2 := splitSlash_append [] n.data (by simp)
    rw [List.nil_append] at h1 h2
    rw [hdata, h1, h2, splitSlash_single _ hn.2.1]
  have hfold : List.foldl (cleanStep true) [] [[], [], n.data] = [n.data] := by
    simp [cleanStep, hn.1, hn.2.2.1, hn.2.2.2]
  unfold filepath.Join
  rw [if_pos (by decide)]
  unfold filepath.Clean
  have hnonempty : ("/" ++ "/" ++ n).data ≠ [] := by rw [hdata]; simp
  have hrooted : decide (("/" ++ "/" ++ n).data.head? = some '/') = true := by
    rw [hdata]; simp
  simp only [hnonempty, if_false, hrooted, if_true, hsplit, hfold]
  apply String.ext
  simp [String.data_append, List.intercalate]

/-! ### The directory branch of the root handler -/

/-- C5, as stated, fails.  For `P = "/"` the entry `docs` gets the href `/docs`, not `P`
followed by `/` followed by the name (`//docs`); and for `P = "/markup"`, a directory
with the two entries `<b>x` and `<li>`, the body holds four occurrences of `<li>`. -/
theorem rootHandler_listing_counterexample :
    (rootHandler demoFs demoRest ResponseWriter.fresh (get "/")).1
        = { status := some 200,
            body := "<h1>Index of /</h1><ul>"
              ++ "<li><a href=\"/docs\">docs</a></li>"
              ++ "<li><a href=\"/index.html\">index.html</a></li>"
              ++ "<li><a href=\"/locked.txt\">locked.txt</a></li>"
              ++ "<li><a href=\"/markup\">markup</a></li>"
              ++ "<li><a href=\"/notes.txt\">notes.txt</a></li>" ++ "</ul>" }
      ∧ occurrences ("<a href=\"" ++ ("/" ++ "/" ++ "docs") ++ "\">").data
          (rootHandler demoFs demoRest ResponseWriter.fresh (get "/")).1.body.data = 0
      ∧ demoFs.ReadDir "./markup" = .ok ["<b>x", "<li>"]
      ∧ occurrences "<li>".data
          (rootHandler demoFs demoRest ResponseWriter.fresh (get "/markup")).1.body.data = 4 := by
  refine ⟨by rfl, by rfl, by rfl, by rfl⟩

/-- C5 (amended): for a URL path `P` whose stat yields a directory and whose enumeration
yields the names `n_1 .. n_k`, the root handler answers `200` and the body holds one item
`<li><a href="H_i">n_i</a></li>` per entry, in order, between `<h1>Index of P</h1><ul>`
and `</ul>`, with `H_i = filepath.Join(P, n_i)`.  The body holds exactly `k` occurrences
of `<li>` when neither `P` nor any name contains the character `<`.  `H_i` is `P`
followed by `/` followed by `n_i` when `P` is `/` followed by one or more plain names
separated by single `/` and `n_i` is a plain name; for `P = "/"` it is `/` followed by
`n_i`. -/
theorem rootHandler_listing_items (fs : FileSystem)
    (rest : ResponseWriter → Request → File → ResponseWriter) (r : Request) (info : FileInfo)
    (names : List String)
    (hS : fs.Stat ("." ++ r.Path) = .ok info) (hD : info.IsDir = true)
    (hR : fs.ReadDir ("." ++ r.Path) = .ok names) :
    (rootHandler fs rest ResponseWriter.fresh r).1.status = some 200
      ∧ (rootHandler fs rest ResponseWriter.fresh r).1.body
          = "<h1>Index of " ++ r.Path ++ "</h1><ul>"
            ++ String.join (names.map fun n =>
                "<li><a href=\"" ++ filepath.Join r.Path n ++ "\">" ++ n ++ "</a></li>")
            ++ "</ul>"
      ∧ ('<' ∉ r.Path.data → (∀ n ∈ names, '<' ∉ n.data) →
          occurrences "<li>".data (rootHandler fs rest ResponseWriter.fresh r).1.body.data
            = names.length)
      ∧ (∀ es : List (List Char), es ≠ [] → (∀ e ∈ es, plainName e) →
          r.Path.data = '/' :: List.intercalate ['/'] es →
          ∀ n ∈ names, plainName n.data → filepath.Join r.Path n = r.Path ++ "/" ++ n)
      ∧ (r.Path = "/" → ∀ n ∈ names, plainName n.data → filepath.Join r.Path n = "/" ++ n) := by
  rw [rootHandler_listing fs rest r info names hS hD hR]
  refine ⟨rfl, rfl, ?_, ?_, ?_⟩
  · intro hP hn
    exact occurrences_listing r.Path names hP hn
  · intro es hne hes hP n _ hn
    exact join_plain r.Path n es hne hes hP hn
  · intro hP n _ hn
    rw [hP]
    exact join_root_plain n hn

/-- Witness for C5 (amended): the listing of `/docs`, with the entries `a.txt` and
`b.txt`, holds two occurrences of `<li>`, and the href of `a.txt` is `/docs/a.txt`; in
the listing of `/` the href of `docs` is `/docs`. -/
theorem rootHandler_listing_items_witness :
    occurrences "<li>".data
        (rootHandler demoFs demoRest ResponseWriter.fresh (get "/docs")).1.body.data = 2
      ∧ filepath.Join "/docs" "a.txt" = "/docs" ++ "/" ++ "a.txt"
      ∧ filepath.Join "/" "docs" = "/" ++ "docs" :=
  have h := rootHandler_listing_items demoFs demoRest (get "/docs") { IsDir := true }
    ["a.txt", "b.txt"] rfl rfl rfl
  have h0 := rootHandler_listing_items demoFs demoRest (get "/") { IsDir := true }
    ["docs", "index.html", "locked.txt", "markup", "notes.txt"] rfl rfl rfl
  ⟨h.2.2.1 (by decide) (by decide),
    h.2.2.2.1 ["docs".data] (by simp) (by simp [plainName]) (by rfl) "a.txt" (by simp)
      (by simp [plainName]),
    h0.2.2.2.2 rfl "docs" (by simp) (by simp [plainName])⟩

end FileServer
